import Mathlib

/-!
Verification development for the PCAL95555 GPIO-expander driver
(`inc/pcal95555.hpp`, `src/pcal95555.ipp`).

The driver is embedded shallowly: the borrowed I2C transport is a scripted
oracle (`Transport`), driver member state is the record `DriverState`, and
every member function becomes an explicit state-passing Lean function.
Each transport register access is logged in `DriverState.trace`, so
"performs no transport I/O" claims become statements about the trace.
Callback invocations are modelled as emitted `Event`s (the `std::function`
payloads themselves are opaque to the driver logic being verified).
-/

namespace pcal95555

/-- Chip variant, `enum class ChipVariant` in `pcal95555.hpp`. -/
inductive ChipVariant where
  | Unknown
  | PCA9555
  | PCAL9555A
deriving DecidableEq, Repr

/-- GPIO direction, `enum class GPIODir` (Input = 1, Output = 0). -/
inductive GPIODir where
  | Input
  | Output
deriving DecidableEq, Repr

/-- Input polarity, `enum class Polarity` (Normal = 0, Inverted = 1). -/
inductive Polarity where
  | Normal
  | Inverted
deriving DecidableEq, Repr

/-- Drive strength level, `enum class DriveStrength` (2-bit value 0..3). -/
inductive DriveStrength where
  | Level0
  | Level1
  | Level2
  | Level3
deriving DecidableEq, Repr

/-- Numeric value of a drive-strength level (`uint8_t(level)` in the source). -/
def DriveStrength.val : DriveStrength → Nat
  | .Level0 => 0
  | .Level1 => 1
  | .Level2 => 2
  | .Level3 => 3

/-- Interrupt edge filter, `enum class InterruptEdge`. -/
inductive InterruptEdge where
  | Rising
  | Falling
  | Both
deriving DecidableEq, Repr

/-- Error bit values of `enum class Error : uint16_t` in `pcal95555.hpp`
(lines 420-427).  The enum defines exactly the bits 1,2,4,8,16. -/
def Error.InvalidPin : Nat := 1

/-- Error bit `InvalidMask = 1 << 1`. -/
def Error.InvalidMask : Nat := 2

/-- Error bit `I2CReadFail = 1 << 2`. -/
def Error.I2CReadFail : Nat := 4

/-- Error bit `I2CWriteFail = 1 << 3`. -/
def Error.I2CWriteFail : Nat := 8

/-- Error bit `UnsupportedFeature = 1 << 4`. -/
def Error.UnsupportedFeature : Nat := 16

/-- Modelled from the spec: the spec's error-kind list (§7) includes an
`InvalidAddress` error bit ("address outside [0x20,0x27] on an explicit
address-change request"), and `pcal95555.ipp` references
`Error::InvalidAddress`, but the `Error` enum in `pcal95555.hpp` defines no
such enumerator.  We model the intended flag as the next free bit. -/
def Error.InvalidAddress : Nat := 32

/-- Register addresses, `enum class Pcal95555Reg` in `pcal95555.hpp`. -/
def Reg.INPUT_PORT_0 : Nat := 0x00
/-- Register 0x01. -/
def Reg.INPUT_PORT_1 : Nat := 0x01
/-- Register 0x02. -/
def Reg.OUTPUT_PORT_0 : Nat := 0x02
/-- Register 0x03. -/
def Reg.OUTPUT_PORT_1 : Nat := 0x03
/-- Register 0x04. -/
def Reg.POLARITY_INV_0 : Nat := 0x04
/-- Register 0x05. -/
def Reg.POLARITY_INV_1 : Nat := 0x05
/-- Register 0x06. -/
def Reg.CONFIG_PORT_0 : Nat := 0x06
/-- Register 0x07. -/
def Reg.CONFIG_PORT_1 : Nat := 0x07
/-- Register 0x40. -/
def Reg.DRIVE_STRENGTH_0 : Nat := 0x40
/-- Register 0x41. -/
def Reg.DRIVE_STRENGTH_1 : Nat := 0x41
/-- Register 0x42. -/
def Reg.DRIVE_STRENGTH_2 : Nat := 0x42
/-- Register 0x43. -/
def Reg.DRIVE_STRENGTH_3 : Nat := 0x43
/-- Register 0x44. -/
def Reg.INPUT_LATCH_0 : Nat := 0x44
/-- Register 0x45. -/
def Reg.INPUT_LATCH_1 : Nat := 0x45
/-- Register 0x46. -/
def Reg.PULL_ENABLE_0 : Nat := 0x46
/-- Register 0x47. -/
def Reg.PULL_ENABLE_1 : Nat := 0x47
/-- Register 0x48. -/
def Reg.PULL_SELECT_0 : Nat := 0x48
/-- Register 0x49. -/
def Reg.PULL_SELECT_1 : Nat := 0x49
/-- Register 0x4A. -/
def Reg.INT_MASK_0 : Nat := 0x4A
/-- Register 0x4B. -/
def Reg.INT_MASK_1 : Nat := 0x4B
/-- Register 0x4C. -/
def Reg.INT_STATUS_0 : Nat := 0x4C
/-- Register 0x4D. -/
def Reg.INT_STATUS_1 : Nat := 0x4D
/-- Register 0x4F. -/
def Reg.OUTPUT_CONF : Nat := 0x4F

/-- One logged transport register access (address, register, and for writes
the byte written).  The transport's `Write`/`Read` primitives transfer one
byte at a time in this driver. -/
inductive TOp where
  | read (addr reg : Nat)
  | write (addr reg val : Nat)
deriving DecidableEq, Repr

/-- The register byte an access touches. -/
def TOp.reg : TOp → Nat
  | .read _ r => r
  | .write _ r _ => r

/-- Whether the access is a write. -/
def TOp.isWrite : TOp → Bool
  | .read _ _ => false
  | .write _ _ _ => true

/-- A scripted transport (the external collaborator).  `script i` gives the
outcome of the `i`-th transport register access: whether it is acknowledged
and, for reads, the byte returned.  `ensureInitOk` scripts
`i2c_->EnsureInitialized()`; `setAddressPinsOk` scripts
`i2c_->SetAddressPins(...)`, whose result the driver ignores. -/
structure Transport where
  ensureInitOk : Bool
  setAddressPinsOk : Bool
  script : Nat → Bool × Nat

/-- Per-pin callback slot, `struct PinInterruptCallback` in the header.
The `std::function` payload is modelled by its presence (`hasCallback`);
invocations are emitted as `Event`s. -/
structure PinInterruptCallback where
  hasCallback : Bool
  edge : InterruptEdge
  registered : Bool
deriving DecidableEq, Repr

/-- A callback invocation emitted during `HandleInterrupt`. -/
inductive Event where
  | globalCb (mask : Nat)
  | pinCb (pin : Nat) (state : Bool)
deriving DecidableEq, Repr

/-- The driver's member state (fields of `class PCAL95555`), together with
the transport-access counter `t` (index into the script) and the log
`trace` of every transport register access issued so far. -/
structure DriverState where
  devAddr : Nat
  addressBits : Nat
  retries : Int
  errorFlags : Nat
  irqRegistered : Bool
  pinCallbacks : Nat → PinInterruptCallback
  previousPinStates : Nat
  initialized : Bool
  a0 : Bool
  a1 : Bool
  a2 : Bool
  chipVariant : ChipVariant
  userVariant : ChipVariant
  t : Nat
  trace : List TOp

/-- Source `setError`: `error_flags_ |= uint16_t(e)`. -/
def setError (s : DriverState) (e : Nat) : DriverState :=
  { s with errorFlags := s.errorFlags ||| e }

/-- Source `clearError`: `error_flags_ &= ~uint16_t(e)` (16-bit complement). -/
def clearError (s : DriverState) (e : Nat) : DriverState :=
  { s with errorFlags := s.errorFlags &&& (65535 ^^^ e) }

/-- Source `GetErrorFlags()`. -/
def GetErrorFlags (s : DriverState) : Nat := s.errorFlags

/-- Source `HasError(e)`: `(error_flags_ & uint16_t(e)) != 0`. -/
def HasError (s : DriverState) (e : Nat) : Bool := (s.errorFlags &&& e) != 0

/-- Source `ClearErrorFlags(mask)`: `error_flags_ &= ~mask`. -/
def ClearErrorFlags (s : DriverState) (mask : Nat) : DriverState :=
  { s with errorFlags := s.errorFlags &&& (65535 ^^^ mask) }

/-- Source `GetChipVariant()`. -/
def GetChipVariant (s : DriverState) : ChipVariant := s.chipVariant

/-- Source `GetAddress()`. -/
def GetAddress (s : DriverState) : Nat := s.devAddr

/-- Source `GetAddressBits()`. -/
def GetAddressBits (s : DriverState) : Nat := s.addressBits

/-- Source `SetRetries(n)`. -/
def SetRetries (s : DriverState) (n : Int) : DriverState := { s with retries := n }

/-- Source `CalculateAddress(bits)`: `0x20 + (bits & 0x07)`. -/
def calculateAddress (bits : Nat) : Nat := 0x20 + (bits &&& 0x07)

/-- Source `updateBit(regVal, bit, set)`: set or clear bit `bit` of the byte. -/
def updateBit (regVal bit : Nat) (set : Bool) : Nat :=
  if set then regVal ||| (1 <<< bit)
  else regVal &&& (255 ^^^ ((1 <<< bit) % 256))

/-- One transport write attempt: consume one script entry, log the access. -/
def busWrite (tr : Transport) (s : DriverState) (reg val : Nat) : Bool × DriverState :=
  ((tr.script s.t).1,
   { s with t := s.t + 1, trace := s.trace ++ [TOp.write s.devAddr reg val] })

/-- One transport read attempt: consume one script entry, log the access;
the byte returned is the scripted value truncated to `uint8_t`. -/
def busRead (tr : Transport) (s : DriverState) (reg : Nat) : (Bool × Nat) × DriverState :=
  (((tr.script s.t).1, (tr.script s.t).2 % 256),
   { s with t := s.t + 1, trace := s.trace ++ [TOp.read s.devAddr reg] })

/-- The retry loop of `writeRegister`, unrolled on the remaining attempt
count (`for (int attempt = 0; attempt <= retries_; ++attempt)`). -/
def writeAttempts (tr : Transport) (reg val : Nat) : Nat → DriverState → Bool × DriverState
  | 0, s => (false, setError s Error.I2CWriteFail)
  | n + 1, s =>
    let (ok, s1) := busWrite tr s reg val
    if ok then (true, clearError s1 Error.I2CWriteFail)
    else writeAttempts tr reg val n s1

/-- Source `writeRegister(reg, value)`: up to `retries_ + 1` transport attempts;
success clears `I2CWriteFail`, exhaustion sets it. -/
def writeRegister (tr : Transport) (s : DriverState) (reg val : Nat) : Bool × DriverState :=
  writeAttempts tr reg val (s.retries + 1).toNat s

/-- The retry loop of `readRegister`.  On overall failure the caller's
`value` variable keeps its initial contents; every call site initializes it
to `0`, so the failure value is `0`. -/
def readAttempts (tr : Transport) (reg : Nat) : Nat → DriverState → (Bool × Nat) × DriverState
  | 0, s => ((false, 0), setError s Error.I2CReadFail)
  | n + 1, s =>
    let ((ok, v), s1) := busRead tr s reg
    if ok then ((true, v), clearError s1 Error.I2CReadFail)
    else readAttempts tr reg n s1

/-- Source `readRegister(reg, value)`: up to `retries_ + 1` transport attempts;
success clears `I2CReadFail`, exhaustion sets it. -/
def readRegister (tr : Transport) (s : DriverState) (reg : Nat) : (Bool × Nat) × DriverState :=
  readAttempts tr reg (s.retries + 1).toNat s

/-- Default-constructed callback slot (`PinInterruptCallback()`), also what
the constructor's loop writes into every slot. -/
def emptySlot : PinInterruptCallback :=
  { hasCallback := false, edge := InterruptEdge.Both, registered := false }

/-- The pin-level constructor `PCAL95555(bus, a0, a1, a2, variant)`:
packs the three levels into `address_bits_`, derives `dev_addr_`, clears the
callback table, performs no I/O (`trace = []`). -/
def PCAL95555ofPins (a0 a1 a2 : Bool) (variant : ChipVariant) : DriverState :=
  let bits := (cond a0 1 0) ||| ((cond a1 1 0) <<< 1) ||| ((cond a2 1 0) <<< 2)
  { devAddr := calculateAddress bits, addressBits := bits, retries := 1, errorFlags := 0,
    irqRegistered := false, pinCallbacks := fun _ => emptySlot,
    previousPinStates := 0, initialized := false, a0 := a0, a1 := a1, a2 := a2,
    chipVariant := ChipVariant.Unknown, userVariant := variant, t := 0, trace := [] }

/-- The address constructor `PCAL95555(bus, address, variant)`: the
`uint8_t` address is clamped to `[0x20, 0x27]`, `address_bits_ = address -
0x20`, and the three pin levels are back-derived from the bits.  No I/O. -/
def PCAL95555ofAddress (address : Nat) (variant : ChipVariant) : DriverState :=
  let address := address % 256
  let address := if address < 0x20 then 0x20 else if 0x27 < address then 0x27 else address
  let bits := (address - 0x20) &&& 0x07
  { devAddr := calculateAddress bits, addressBits := bits, retries := 1, errorFlags := 0,
    irqRegistered := false, pinCallbacks := fun _ => emptySlot,
    previousPinStates := 0, initialized := false,
    a0 := (bits &&& 0x01) != 0, a1 := (bits &&& 0x02) != 0, a2 := (bits &&& 0x04) != 0,
    chipVariant := ChipVariant.Unknown, userVariant := variant, t := 0, trace := [] }

/-- Source `readPinStates()`: read both input port registers (return values of the
two `readRegister` calls are discarded) and combine into a 16-bit word. -/
def readPinStates (tr : Transport) (s : DriverState) : Nat × DriverState :=
  let ((_, p0), s) := readRegister tr s Reg.INPUT_PORT_0
  let ((_, p1), s) := readRegister tr s Reg.INPUT_PORT_1
  ((p1 <<< 8) ||| p0, s)

/-- Source `requireAgileIo()`: guard that sets `UnsupportedFeature` and fails when
the variant is not `PCAL9555A`.  No transport access. -/
def requireAgileIo (s : DriverState) : Bool × DriverState :=
  if s.chipVariant = ChipVariant.PCAL9555A then (true, s)
  else (false, setError s Error.UnsupportedFeature)

/-- Source `detectChipVariant()`: the three-read sandwich, run with retries
temporarily forced to `0`. -/
def detectChipVariant (tr : Transport) (s0 : DriverState) : DriverState :=
  let saved := s0.retries
  let s := { s0 with retries := 0 }
  let ((ok1, _), s) := readRegister tr s Reg.INPUT_PORT_0
  if ok1 = false then
    { s with retries := saved }
  else
    let s := clearError s Error.I2CReadFail
    let ((okProbe, _), s) := readRegister tr s Reg.OUTPUT_CONF
    let s :=
      if okProbe then
        let ((ok3, _), s) := readRegister tr s Reg.INPUT_PORT_0
        if ok3 then clearError { s with chipVariant := ChipVariant.PCAL9555A } Error.I2CReadFail
        else clearError s Error.I2CReadFail
      else
        let s := clearError s Error.I2CReadFail
        let ((ok3, _), s) := readRegister tr s Reg.INPUT_PORT_0
        if ok3 then clearError { s with chipVariant := ChipVariant.PCA9555 } Error.I2CReadFail
        else clearError s Error.I2CReadFail
    { s with retries := saved }

/-- Source `initialize()` (the private lazy-init worker): bus readiness check,
best-effort `SetAddressPins` (result ignored, not a register access),
communication-verify read of `INPUT_PORT_0`, variant detection (skipped if
the user supplied a variant), snapshot of `previous_pin_states_`. -/
def initDriver (tr : Transport) (s : DriverState) : Bool × DriverState :=
  if tr.ensureInitOk = false then
    (false, { setError s Error.I2CReadFail with initialized := false })
  else
    let ((ok, _), s) := readRegister tr s Reg.INPUT_PORT_0
    if ok = false then
      (false, { setError s Error.I2CReadFail with initialized := false })
    else
      let s := clearError s Error.I2CReadFail
      let s :=
        if s.userVariant = ChipVariant.Unknown then detectChipVariant tr s
        else { s with chipVariant := s.userVariant }
      let (ps, s) := readPinStates tr s
      (true, { s with previousPinStates := ps, initialized := true })

/-- Source `EnsureInitialized()`: idempotent lazy initialization. -/
def EnsureInitialized (tr : Transport) (s : DriverState) : Bool × DriverState :=
  if s.initialized then (true, s) else initDriver tr s

/-- Source `readDualPort(reg0, reg1)`: two reads, short-circuiting on failure
(on failure of the first read the second register byte stays `0`). -/
def readDualPort (tr : Transport) (s : DriverState) (reg0 reg1 : Nat) :
    (Bool × Nat × Nat) × DriverState :=
  let ((ok0, v0), s) := readRegister tr s reg0
  if ok0 = false then ((false, v0, 0), s)
  else
    let ((ok1, v1), s) := readRegister tr s reg1
    ((ok1, v0, v1), s)

/-- Source `writeDualPort(reg0, reg1, val0, val1)`: two writes, short-circuiting. -/
def writeDualPort (tr : Transport) (s : DriverState) (reg0 reg1 val0 val1 : Nat) :
    Bool × DriverState :=
  let (ok0, s) := writeRegister tr s reg0 val0
  if ok0 = false then (false, s)
  else writeRegister tr s reg1 val1

/-- Source `modifySinglePinRegister(reg0, reg1, pin, bit_value)`: read-modify-write
of the port byte holding `pin`. -/
def modifySinglePinRegister (tr : Transport) (s : DriverState)
    (reg0 reg1 pin : Nat) (bitValue : Bool) : Bool × DriverState :=
  let reg := if pin < 8 then reg0 else reg1
  let bit := pin % 8
  let ((ok, v), s) := readRegister tr s reg
  if ok = false then (false, s)
  else writeRegister tr s reg (updateBit v bit bitValue)

/-- Source `SetPinDirection(pin, dir)`. -/
def SetPinDirection (tr : Transport) (s : DriverState) (pin : Nat) (dir : GPIODir) :
    Bool × DriverState :=
  let (ok, s) := EnsureInitialized tr s
  if ok = false then (false, s)
  else if 16 ≤ pin then (false, setError s Error.InvalidPin)
  else
    let s := clearError s Error.InvalidPin
    modifySinglePinRegister tr s Reg.CONFIG_PORT_0 Reg.CONFIG_PORT_1 pin (dir == GPIODir.Input)

/-- Source `WritePin(pin, value)`. -/
def WritePin (tr : Transport) (s : DriverState) (pin : Nat) (value : Bool) :
    Bool × DriverState :=
  let (ok, s) := EnsureInitialized tr s
  if ok = false then (false, s)
  else if 16 ≤ pin then (false, setError s Error.InvalidPin)
  else
    let s := clearError s Error.InvalidPin
    modifySinglePinRegister tr s Reg.OUTPUT_PORT_0 Reg.OUTPUT_PORT_1 pin value

/-- Source `ReadPin(pin)`: the returned `bool` conflates failure with a low level. -/
def ReadPin (tr : Transport) (s : DriverState) (pin : Nat) : Bool × DriverState :=
  let (ok, s) := EnsureInitialized tr s
  if ok = false then (false, s)
  else if 16 ≤ pin then (false, setError s Error.InvalidPin)
  else
    let s := clearError s Error.InvalidPin
    let reg := if pin < 8 then Reg.INPUT_PORT_0 else Reg.INPUT_PORT_1
    let ((okR, v), s) := readRegister tr s reg
    if okR = false then (false, s)
    else ((v &&& (1 <<< (pin % 8))) != 0, s)

/-- Source `SetPinPolarity(pin, polarity)`. -/
def SetPinPolarity (tr : Transport) (s : DriverState) (pin : Nat) (polarity : Polarity) :
    Bool × DriverState :=
  let (ok, s) := EnsureInitialized tr s
  if ok = false then (false, s)
  else if 16 ≤ pin then (false, setError s Error.InvalidPin)
  else
    let s := clearError s Error.InvalidPin
    modifySinglePinRegister tr s Reg.POLARITY_INV_0 Reg.POLARITY_INV_1 pin
      (polarity == Polarity.Inverted)

/-- The shared shape of the list-based fold loops (`for (config : configs)`
in `SetDirections`, `WritePins`, `SetPolarities`, `SetPullEnables`,
`SetPullDirections`, `EnableInputLatches`): each loop validates the pin
*while* folding its bit into the in-memory port bytes and bails out at the
first out-of-range pin (`none` ≙ `setError(InvalidPin); return false`).
`f` extracts the bit written, exactly as each loop body does. -/
def foldPortPair {α : Type} (f : α → Bool) :
    List (Nat × α) → Nat → Nat → Option (Nat × Nat)
  | [], p0, p1 => some (p0, p1)
  | (pin, v) :: rest, p0, p1 =>
    if 16 ≤ pin then none
    else if pin < 8 then foldPortPair f rest (updateBit p0 (pin % 8) (f v)) p1
    else foldPortPair f rest p0 (updateBit p1 (pin % 8) (f v))

/-- Source `SetDirections(configs)` (list-based batch). -/
def SetDirections (tr : Transport) (s : DriverState) (configs : List (Nat × GPIODir)) :
    Bool × DriverState :=
  let (ok, s) := EnsureInitialized tr s
  if ok = false then (false, s)
  else
    let ((okR, p0, p1), s) := readDualPort tr s Reg.CONFIG_PORT_0 Reg.CONFIG_PORT_1
    if okR = false then (false, s)
    else
      match foldPortPair (fun d => d == GPIODir.Input) configs p0 p1 with
      | none => (false, setError s Error.InvalidPin)
      | some (q0, q1) =>
        let s := clearError s Error.InvalidPin
        writeDualPort tr s Reg.CONFIG_PORT_0 Reg.CONFIG_PORT_1 q0 q1

/-- Source `WritePins(configs)` (list-based batch). -/
def WritePins (tr : Transport) (s : DriverState) (configs : List (Nat × Bool)) :
    Bool × DriverState :=
  let (ok, s) := EnsureInitialized tr s
  if ok = false then (false, s)
  else
    let ((okR, p0, p1), s) := readDualPort tr s Reg.OUTPUT_PORT_0 Reg.OUTPUT_PORT_1
    if okR = false then (false, s)
    else
      match foldPortPair (fun b => b) configs p0 p1 with
      | none => (false, setError s Error.InvalidPin)
      | some (q0, q1) =>
        let s := clearError s Error.InvalidPin
        writeDualPort tr s Reg.OUTPUT_PORT_0 Reg.OUTPUT_PORT_1 q0 q1

/-- Source `SetPolarities(configs)` (list-based batch). -/
def SetPolarities (tr : Transport) (s : DriverState) (configs : List (Nat × Polarity)) :
    Bool × DriverState :=
  let (ok, s) := EnsureInitialized tr s
  if ok = false then (false, s)
  else
    let ((okR, p0, p1), s) := readDualPort tr s Reg.POLARITY_INV_0 Reg.POLARITY_INV_1
    if okR = false then (false, s)
    else
      match foldPortPair (fun p => p == Polarity.Inverted) configs p0 p1 with
      | none => (false, setError s Error.InvalidPin)
      | some (q0, q1) =>
        let s := clearError s Error.InvalidPin
        writeDualPort tr s Reg.POLARITY_INV_0 Reg.POLARITY_INV_1 q0 q1

/-- Source `ReadPins(pins)`: two input-register reads, then per-pin extraction;
out-of-range pins are *not* an error and are paired with `false`. -/
def ReadPins (tr : Transport) (s : DriverState) (pins : List Nat) :
    List (Nat × Bool) × DriverState :=
  let (ok, s) := EnsureInitialized tr s
  if ok = false then ([], s)
  else
    let ((ok0, p0), s) := readRegister tr s Reg.INPUT_PORT_0
    if ok0 = false then ([], s)
    else
      let ((ok1, p1), s) := readRegister tr s Reg.INPUT_PORT_1
      if ok1 = false then ([], s)
      else
        (pins.map fun pin =>
          if 16 ≤ pin then (pin, false)
          else if pin < 8 then (pin, (p0 &&& (1 <<< (pin % 8))) != 0)
          else (pin, (p1 &&& (1 <<< (pin % 8))) != 0), s)

/-- Source `SetPullEnable(pin, enable)` (PCAL9555A only). -/
def SetPullEnable (tr : Transport) (s : DriverState) (pin : Nat) (enable : Bool) :
    Bool × DriverState :=
  let (ok, s) := EnsureInitialized tr s
  if ok = false then (false, s)
  else
    let (okA, s) := requireAgileIo s
    if okA = false then (false, s)
    else if 16 ≤ pin then (false, setError s Error.InvalidPin)
    else
      let s := clearError s Error.InvalidPin
      modifySinglePinRegister tr s Reg.PULL_ENABLE_0 Reg.PULL_ENABLE_1 pin enable

/-- Source `SetPullDirection(pin, pull_up)` (PCAL9555A only). -/
def SetPullDirection (tr : Transport) (s : DriverState) (pin : Nat) (pullUp : Bool) :
    Bool × DriverState :=
  let (ok, s) := EnsureInitialized tr s
  if ok = false then (false, s)
  else
    let (okA, s) := requireAgileIo s
    if okA = false then (false, s)
    else if 16 ≤ pin then (false, setError s Error.InvalidPin)
    else
      let s := clearError s Error.InvalidPin
      modifySinglePinRegister tr s Reg.PULL_SELECT_0 Reg.PULL_SELECT_1 pin pullUp

/-- Source `SetPullEnables(configs)` (PCAL9555A only, list-based batch). -/
def SetPullEnables (tr : Transport) (s : DriverState) (configs : List (Nat × Bool)) :
    Bool × DriverState :=
  let (ok, s) := EnsureInitialized tr s
  if ok = false then (false, s)
  else
    let (okA, s) := requireAgileIo s
    if okA = false then (false, s)
    else
      let ((okR, p0, p1), s) := readDualPort tr s Reg.PULL_ENABLE_0 Reg.PULL_ENABLE_1
      if okR = false then (false, s)
      else
        match foldPortPair (fun b => b) configs p0 p1 with
        | none => (false, setError s Error.InvalidPin)
        | some (q0, q1) =>
          let s := clearError s Error.InvalidPin
          writeDualPort tr s Reg.PULL_ENABLE_0 Reg.PULL_ENABLE_1 q0 q1

/-- Source `SetPullDirections(configs)` (PCAL9555A only, list-based batch). -/
def SetPullDirections (tr : Transport) (s : DriverState) (configs : List (Nat × Bool)) :
    Bool × DriverState :=
  let (ok, s) := EnsureInitialized tr s
  if ok = false then (false, s)
  else
    let (okA, s) := requireAgileIo s
    if okA = false then (false, s)
    else
      let ((okR, p0, p1), s) := readDualPort tr s Reg.PULL_SELECT_0 Reg.PULL_SELECT_1
      if okR = false then (false, s)
      else
        match foldPortPair (fun b => b) configs p0 p1 with
        | none => (false, setError s Error.InvalidPin)
        | some (q0, q1) =>
          let s := clearError s Error.InvalidPin
          writeDualPort tr s Reg.PULL_SELECT_0 Reg.PULL_SELECT_1 q0 q1

/-- Source `EnableInputLatch(pin, enable)` (PCAL9555A only). -/
def EnableInputLatch (tr : Transport) (s : DriverState) (pin : Nat) (enable : Bool) :
    Bool × DriverState :=
  let (ok, s) := EnsureInitialized tr s
  if ok = false then (false, s)
  else
    let (okA, s) := requireAgileIo s
    if okA = false then (false, s)
    else if 16 ≤ pin then (false, setError s Error.InvalidPin)
    else
      let s := clearError s Error.InvalidPin
      modifySinglePinRegister tr s Reg.INPUT_LATCH_0 Reg.INPUT_LATCH_1 pin enable

/-- Source `EnableInputLatches(configs)` (PCAL9555A only, list-based batch). -/
def EnableInputLatches (tr : Transport) (s : DriverState) (configs : List (Nat × Bool)) :
    Bool × DriverState :=
  let (ok, s) := EnsureInitialized tr s
  if ok = false then (false, s)
  else
    let (okA, s) := requireAgileIo s
    if okA = false then (false, s)
    else
      let ((okR, p0, p1), s) := readDualPort tr s Reg.INPUT_LATCH_0 Reg.INPUT_LATCH_1
      if okR = false then (false, s)
      else
        match foldPortPair (fun b => b) configs p0 p1 with
        | none => (false, setError s Error.InvalidPin)
        | some (q0, q1) =>
          let s := clearError s Error.InvalidPin
          writeDualPort tr s Reg.INPUT_LATCH_0 Reg.INPUT_LATCH_1 q0 q1

/-- Two-bit field update of `SetDriveStrength`/`SetDriveStrengths`:
`*p &= ~(0x3 << bit); *p |= level << bit;` on a `uint8_t`. -/
def updateDriveBits (b bit level : Nat) : Nat :=
  (b &&& (255 ^^^ ((3 <<< bit) % 256))) ||| (level <<< bit)

/-- Source `SetDriveStrength(pin, level)` (PCAL9555A only): 2 bits per pin across
the four drive-strength registers. -/
def SetDriveStrength (tr : Transport) (s : DriverState) (pin : Nat) (level : DriveStrength) :
    Bool × DriverState :=
  let (ok, s) := EnsureInitialized tr s
  if ok = false then (false, s)
  else
    let (okA, s) := requireAgileIo s
    if okA = false then (false, s)
    else if 16 ≤ pin then (false, setError s Error.InvalidPin)
    else
      let s := clearError s Error.InvalidPin
      let base := if pin < 8 then Reg.DRIVE_STRENGTH_0 else Reg.DRIVE_STRENGTH_2
      let index := pin % 8
      let reg := base + (if 4 ≤ index then 1 else 0)
      let bit := (index % 4) * 2
      let ((okR, v), s) := readRegister tr s reg
      if okR = false then (false, s)
      else writeRegister tr s reg (updateDriveBits v bit level.val)

/-- The fold loop of `SetDriveStrengths`, over the four in-memory
drive-strength bytes; bails out at the first out-of-range pin. -/
def foldDrive : List (Nat × DriveStrength) → Nat → Nat → Nat → Nat →
    Option (Nat × Nat × Nat × Nat)
  | [], d0, d1, d2, d3 => some (d0, d1, d2, d3)
  | (pin, level) :: rest, d0, d1, d2, d3 =>
    if 16 ≤ pin then none
    else
      let index := pin % 8
      let bit := (index % 4) * 2
      if pin < 8 then
        if 4 ≤ index then foldDrive rest d0 (updateDriveBits d1 bit level.val) d2 d3
        else foldDrive rest (updateDriveBits d0 bit level.val) d1 d2 d3
      else
        if 4 ≤ index then foldDrive rest d0 d1 d2 (updateDriveBits d3 bit level.val)
        else foldDrive rest d0 d1 (updateDriveBits d2 bit level.val) d3

/-- Source `SetDriveStrengths(configs)` (PCAL9555A only, list-based batch over the
four drive-strength registers). -/
def SetDriveStrengths (tr : Transport) (s : DriverState)
    (configs : List (Nat × DriveStrength)) : Bool × DriverState :=
  let (ok, s) := EnsureInitialized tr s
  if ok = false then (false, s)
  else
    let (okA, s) := requireAgileIo s
    if okA = false then (false, s)
    else
      let ((ok0, d0), s) := readRegister tr s Reg.DRIVE_STRENGTH_0
      if ok0 = false then (false, s)
      else
        let ((ok1, d1), s) := readRegister tr s Reg.DRIVE_STRENGTH_1
        if ok1 = false then (false, s)
        else
          let ((ok2, d2), s) := readRegister tr s Reg.DRIVE_STRENGTH_2
          if ok2 = false then (false, s)
          else
            let ((ok3, d3), s) := readRegister tr s Reg.DRIVE_STRENGTH_3
            if ok3 = false then (false, s)
            else
              match foldDrive configs d0 d1 d2 d3 with
              | none => (false, setError s Error.InvalidPin)
              | some (e0, e1, e2, e3) =>
                let s := clearError s Error.InvalidPin
                let (w0, s) := writeRegister tr s Reg.DRIVE_STRENGTH_0 e0
                if w0 = false then (false, s)
                else
                  let (w1, s) := writeRegister tr s Reg.DRIVE_STRENGTH_1 e1
                  if w1 = false then (false, s)
                  else
                    let (w2, s) := writeRegister tr s Reg.DRIVE_STRENGTH_2 e2
                    if w2 = false then (false, s)
                    else writeRegister tr s Reg.DRIVE_STRENGTH_3 e3

/-- Source `ConfigureInterruptMask(mask)` (PCAL9555A only). -/
def ConfigureInterruptMask (tr : Transport) (s : DriverState) (mask : Nat) :
    Bool × DriverState :=
  let (ok, s) := EnsureInitialized tr s
  if ok = false then (false, s)
  else
    let (okA, s) := requireAgileIo s
    if okA = false then (false, s)
    else
      let (w0, s) := writeRegister tr s Reg.INT_MASK_0 (mask &&& 0xFF)
      if w0 = false then (false, s)
      else writeRegister tr s Reg.INT_MASK_1 ((mask >>> 8) &&& 0xFF)

/-- Source `GetInterruptStatus()` (PCAL9555A only): reads the two status bytes,
ignoring read failures (a failed read leaves the byte `0`). -/
def GetInterruptStatus (tr : Transport) (s : DriverState) : Nat × DriverState :=
  let (ok, s) := EnsureInitialized tr s
  if ok = false then (0, s)
  else
    let (okA, s) := requireAgileIo s
    if okA = false then (0, s)
    else
      let ((_, lo), s) := readRegister tr s Reg.INT_STATUS_0
      let ((_, hi), s) := readRegister tr s Reg.INT_STATUS_1
      ((hi <<< 8) ||| lo, s)

/-- Source `SetOutputMode(port_0_open_drain, port_1_open_drain)` (PCAL9555A only). -/
def SetOutputMode (tr : Transport) (s : DriverState) (od0 od1 : Bool) :
    Bool × DriverState :=
  let (ok, s) := EnsureInitialized tr s
  if ok = false then (false, s)
  else
    let (okA, s) := requireAgileIo s
    if okA = false then (false, s)
    else writeRegister tr s Reg.OUTPUT_CONF (((cond od1 1 0) <<< 1) ||| (cond od0 1 0))

/-- Source `SetInterruptCallback(handler)`: registers/replaces the global handler
(the handler body is opaque; only its presence matters to the driver). -/
def SetInterruptCallback (s : DriverState) (registered : Bool) : DriverState :=
  { s with irqRegistered := registered }

/-- Source `RegisterPinInterrupt(pin, edge, callback)`: `hasCb` models whether the
passed `std::function` is non-empty. -/
def RegisterPinInterrupt (tr : Transport) (s : DriverState) (pin : Nat)
    (edge : InterruptEdge) (hasCb : Bool) : Bool × DriverState :=
  let (ok, s) := EnsureInitialized tr s
  if ok = false then (false, s)
  else if 16 ≤ pin then (false, setError s Error.InvalidPin)
  else
    let s := clearError s Error.InvalidPin
    if hasCb = false then (false, s)
    else
      let s := { s with pinCallbacks := fun q =>
        if q = pin then { hasCallback := true, edge := edge, registered := true }
        else s.pinCallbacks q }
      let (cur, s) := readPinStates tr s
      (true, { s with previousPinStates := cur })

/-- Source `UnregisterPinInterrupt(pin)`. -/
def UnregisterPinInterrupt (tr : Transport) (s : DriverState) (pin : Nat) :
    Bool × DriverState :=
  let (ok, s) := EnsureInitialized tr s
  if ok = false then (false, s)
  else if 16 ≤ pin then (false, setError s Error.InvalidPin)
  else
    let s := clearError s Error.InvalidPin
    if (s.pinCallbacks pin).registered = false then (false, s)
    else
      (true, { s with pinCallbacks := fun q =>
        if q = pin then { hasCallback := false, edge := (s.pinCallbacks pin).edge,
                          registered := false }
        else s.pinCallbacks q })

/-- Events the `HandleInterrupt` dispatch loop emits for one pin: skipped
unless the pin's status bit is set and a callback is registered; then the
transition is classified against the pin's edge filter. -/
def pinDispatch (status prev cur : Nat) (slot : PinInterruptCallback) (pin : Nat) :
    List Event :=
  if (status &&& (1 <<< pin)) = 0 then []
  else if slot.registered = false || slot.hasCallback = false then []
  else
    let prevB := (prev &&& (1 <<< pin)) != 0
    let curB := (cur &&& (1 <<< pin)) != 0
    let rising := !prevB && curB
    let falling := prevB && !curB
    let shouldCall :=
      match slot.edge with
      | .Rising => rising
      | .Falling => falling
      | .Both => rising || falling
    if shouldCall then [Event.pinCb pin curB] else []

/-- The `for (pin = 0; pin < 16; ++pin)` dispatch loop of `HandleInterrupt`. -/
def dispatchLoop (status prev cur : Nat) (cbs : Nat → PinInterruptCallback) : List Event :=
  (List.range 16).flatMap fun pin => pinDispatch status prev cur (cbs pin) pin

/-- Source `HandleInterrupt()`: computes the changed mask (hardware status
registers on PCAL9555A; XOR against `previous_pin_states_` on PCA9555),
reads current states, invokes the global callback and matching per-pin
callbacks (returned as the event list), and refreshes
`previous_pin_states_`. -/
def HandleInterrupt (tr : Transport) (s : DriverState) : DriverState × List Event :=
  let (ok, s) := EnsureInitialized tr s
  if ok = false then (s, [])
  else
    let (status, s) :=
      if s.chipVariant = ChipVariant.PCAL9555A then GetInterruptStatus tr s
      else
        let (cur, s) := readPinStates tr s
        (cur ^^^ s.previousPinStates, s)
    let (cur, s) := readPinStates tr s
    let evs := (if s.irqRegistered then [Event.globalCb status] else [])
      ++ dispatchLoop status s.previousPinStates cur s.pinCallbacks
    ({ s with previousPinStates := cur }, evs)

/-- Source `changeAddressImpl(new_bits)`: update address state, drop
`initialized_`, verify communication at the new address, and re-run variant
detection (or re-apply the user-forced variant). -/
def changeAddressImpl (tr : Transport) (s : DriverState) (newBits : Nat) :
    Bool × DriverState :=
  let s := { s with
    addressBits := newBits, devAddr := calculateAddress newBits,
    a0 := (newBits &&& 0x01) != 0, a1 := (newBits &&& 0x02) != 0,
    a2 := (newBits &&& 0x04) != 0, initialized := false }
  let ((ok, _), s) := readRegister tr s Reg.INPUT_PORT_0
  if ok = false then (false, setError s Error.I2CReadFail)
  else
    let s := clearError (clearError s Error.I2CReadFail) Error.InvalidAddress
    let s :=
      if s.userVariant = ChipVariant.Unknown then detectChipVariant tr s
      else { s with chipVariant := s.userVariant }
    (true, { s with initialized := true })

/-- Source `ChangeAddress(a0, a1, a2)`. -/
def ChangeAddressPins (tr : Transport) (s : DriverState) (a0 a1 a2 : Bool) :
    Bool × DriverState :=
  changeAddressImpl tr s
    ((cond a0 1 0) ||| ((cond a1 1 0) <<< 1) ||| ((cond a2 1 0) <<< 2))

/-- Source `ChangeAddress(address)`: rejects addresses outside `[0x20, 0x27]`
before touching anything (the source's `setError(Error::InvalidAddress)` —
see `Error.InvalidAddress` for the modelled bit). -/
def ChangeAddressU8 (tr : Transport) (s : DriverState) (address : Nat) :
    Bool × DriverState :=
  let address := address % 256
  if address < 0x20 || 0x27 < address then (false, setError s Error.InvalidAddress)
  else changeAddressImpl tr s ((address - 0x20) &&& 0x07)

/-- State after a `readRegister` call that made `k` transport attempts, the
last one acknowledged: counter and trace advance by `k`, `I2CReadFail` is
cleared. -/
def readOkState (s : DriverState) (reg k : Nat) : DriverState :=
  { s with t := s.t + k, trace := s.trace ++ List.replicate k (TOp.read s.devAddr reg),
           errorFlags := s.errorFlags &&& (65535 ^^^ Error.I2CReadFail) }

/-- State after a `readRegister` call whose `k` transport attempts all
failed: counter and trace advance by `k`, `I2CReadFail` is set. -/
def readFailState (s : DriverState) (reg k : Nat) : DriverState :=
  { s with t := s.t + k, trace := s.trace ++ List.replicate k (TOp.read s.devAddr reg),
           errorFlags := s.errorFlags ||| Error.I2CReadFail }

/-- State after a `writeRegister` call that made `k` transport attempts,
the last one acknowledged. -/
def writeOkState (s : DriverState) (reg val k : Nat) : DriverState :=
  { s with t := s.t + k, trace := s.trace ++ List.replicate k (TOp.write s.devAddr reg val),
           errorFlags := s.errorFlags &&& (65535 ^^^ Error.I2CWriteFail) }

/-- State after a `writeRegister` call whose `k` transport attempts all
failed. -/
def writeFailState (s : DriverState) (reg val k : Nat) : DriverState :=
  { s with t := s.t + k, trace := s.trace ++ List.replicate k (TOp.write s.devAddr reg val),
           errorFlags := s.errorFlags ||| Error.I2CWriteFail }

/-- All-acknowledging scripted transport used by concrete witness runs;
reads return alternating bytes. -/
def trOk : Transport := ⟨true, true, fun i => (true, if i % 2 == 0 then 0xA5 else 0x3C)⟩

/-- Scripted transport whose access number 2 (the extended-bank probe read
during detection, for a freshly constructed driver) is NACKed — i.e. a
Base-variant chip on a healthy bus. -/
def trBase : Transport := ⟨true, true, fun i => (i != 2, 0x11)⟩

/-- Scripted transport that fails access 0 and acknowledges from access 1
on (one transient fault). -/
def trFlaky : Transport := ⟨true, true, fun i => (decide (1 ≤ i), 0x42)⟩

/-- Scripted transport that never acknowledges a register access. -/
def trDead : Transport := ⟨true, true, fun _ => (false, 0)⟩

/-- Driver freshly constructed at address 0x20 with auto-detection. -/
def d20 : DriverState := PCAL95555ofAddress 0x20 ChipVariant.Unknown

/-- Source `d20` after initialization against `trOk`: Extended variant detected. -/
def sExt : DriverState := (initDriver trOk d20).2

/-- Source `d20` after initialization against `trBase`: Base variant detected. -/
def sBase : DriverState := (initDriver trBase d20).2

/-- Scripted transport whose every read returns the byte `0x02` (pin 1
high): used to exercise a rising edge on pin 1. -/
def trTwo : Transport := ⟨true, true, fun _ => (true, 0x02)⟩

/-- Source `sBase` with a Rising-edge callback registered on pin 1 (which also
refreshes `previous_pin_states_` from `trOk`, giving `0x3CA5`, whose bit 1
is low). -/
def sReg : DriverState := (RegisterPinInterrupt trOk sBase 1 InterruptEdge.Rising true).2

end pcal95555

-- ===================================================================
-- Theorems
-- ===================================================================

namespace pcal95555

section RetryLemmas

variable (tr : Transport)

/-- Unfolding `writeAttempts` when every available attempt fails. -/
theorem writeAttempts_allFail (reg val : Nat) (m : Nat) (s : DriverState)
    (hfail : ∀ i, i < m → (tr.script (s.t + i)).1 = false) :
    writeAttempts tr reg val m s = (false, writeFailState s reg val m) := by
  induction m generalizing s with
  | zero =>
    simp [writeAttempts, writeFailState, setError]
  | succ n ih =>
    have h0 : (tr.script s.t).1 = false := by simpa using hfail 0 (Nat.succ_pos n)
    simp only [writeAttempts, busWrite, h0, Bool.false_eq_true, if_false]
    rw [ih]
    · simp [writeFailState, List.replicate_succ, Nat.add_comm, Nat.add_assoc,
        Nat.add_left_comm]
    · intro i hi
      have := hfail (i + 1) (by omega)
      simpa [Nat.add_assoc, Nat.add_comm 1 i] using this

/-- Unfolding `writeAttempts` when the first `k` attempts fail and attempt
`k` (zero-based) succeeds, with `k` within the attempt budget `m`. -/
theorem writeAttempts_firstOk (reg val : Nat) (k m : Nat) (s : DriverState)
    (hk : k < m) (hfail : ∀ i, i < k → (tr.script (s.t + i)).1 = false)
    (hok : (tr.script (s.t + k)).1 = true) :
    writeAttempts tr reg val m s = (true, writeOkState s reg val (k + 1)) := by
  induction k generalizing m s with
  | zero =>
    obtain ⟨n, rfl⟩ : ∃ n, m = n + 1 := ⟨m - 1, by omega⟩
    have h0 : (tr.script s.t).1 = true := by simpa using hok
    simp [writeAttempts, busWrite, h0, writeOkState, clearError]
  | succ k ih =>
    obtain ⟨n, rfl⟩ : ∃ n, m = n + 1 := ⟨m - 1, by omega⟩
    have h0 : (tr.script s.t).1 = false := by simpa using hfail 0 (Nat.succ_pos k)
    simp only [writeAttempts, busWrite, h0, Bool.false_eq_true, if_false]
    rw [ih n _ (by omega)]
    · simp [writeOkState, List.replicate_succ, Nat.add_comm, Nat.add_assoc,
        Nat.add_left_comm]
    · intro i hi
      have := hfail (i + 1) (by omega)
      simpa [Nat.add_assoc, Nat.add_comm 1 i] using this
    · simpa [Nat.add_assoc, Nat.add_comm 1 k] using hok

/-- Unfolding `readAttempts` when every available attempt fails. -/
theorem readAttempts_allFail (reg : Nat) (m : Nat) (s : DriverState)
    (hfail : ∀ i, i < m → (tr.script (s.t + i)).1 = false) :
    readAttempts tr reg m s = ((false, 0), readFailState s reg m) := by
  induction m generalizing s with
  | zero =>
    simp [readAttempts, readFailState, setError]
  | succ n ih =>
    have h0 : (tr.script s.t).1 = false := by simpa using hfail 0 (Nat.succ_pos n)
    simp only [readAttempts, busRead, h0, Bool.false_eq_true, if_false]
    rw [ih]
    · simp [readFailState, List.replicate_succ, Nat.add_comm, Nat.add_assoc,
        Nat.add_left_comm]
    · intro i hi
      have := hfail (i + 1) (by omega)
      simpa [Nat.add_assoc, Nat.add_comm 1 i] using this

/-- Unfolding `readAttempts` when the first `k` attempts fail and attempt
`k` (zero-based) succeeds. -/
theorem readAttempts_firstOk (reg : Nat) (k m : Nat) (s : DriverState)
    (hk : k < m) (hfail : ∀ i, i < k → (tr.script (s.t + i)).1 = false)
    (hok : (tr.script (s.t + k)).1 = true) :
    readAttempts tr reg m s =
      ((true, (tr.script (s.t + k)).2 % 256), readOkState s reg (k + 1)) := by
  induction k generalizing m s with
  | zero =>
    obtain ⟨n, rfl⟩ : ∃ n, m = n + 1 := ⟨m - 1, by omega⟩
    have h0 : (tr.script s.t).1 = true := by simpa using hok
    simp [readAttempts, busRead, h0, readOkState, clearError]
  | succ k ih =>
    obtain ⟨n, rfl⟩ : ∃ n, m = n + 1 := ⟨m - 1, by omega⟩
    have h0 : (tr.script s.t).1 = false := by simpa using hfail 0 (Nat.succ_pos k)
    simp only [readAttempts, busRead, h0, Bool.false_eq_true, if_false]
    rw [ih n _ (by omega)]
    · simp [readOkState, List.replicate_succ, Nat.add_comm, Nat.add_assoc,
        Nat.add_left_comm]
    · intro i hi
      have := hfail (i + 1) (by omega)
      simpa [Nat.add_assoc, Nat.add_comm 1 i] using this
    · simpa [Nat.add_assoc, Nat.add_comm 1 k] using hok

/-- A `readRegister` whose very first attempt is acknowledged (the common
case under an all-acknowledging script). -/
theorem readRegister_ok (s : DriverState) (reg : Nat)
    (hok : (tr.script s.t).1 = true) (hr : 0 ≤ s.retries) :
    readRegister tr s reg = ((true, (tr.script s.t).2 % 256), readOkState s reg 1) := by
  have hm : 0 < (s.retries + 1).toNat := by omega
  have := readAttempts_firstOk tr reg 0 ((s.retries + 1).toNat) s hm
    (by intro i hi; omega) (by simpa using hok)
  simpa [readRegister] using this

/-- A `writeRegister` whose very first attempt is acknowledged. -/
theorem writeRegister_ok (s : DriverState) (reg val : Nat)
    (hok : (tr.script s.t).1 = true) (hr : 0 ≤ s.retries) :
    writeRegister tr s reg val = (true, writeOkState s reg val 1) := by
  have hm : 0 < (s.retries + 1).toNat := by omega
  have := writeAttempts_firstOk tr reg val 0 ((s.retries + 1).toNat) s hm
    (by intro i hi; omega) (by simpa using hok)
  simpa [writeRegister] using this

/-- A `readRegister` under `retries_ = 0` whose single attempt fails (the
negative probe during variant detection). -/
theorem readRegister_fail0 (s : DriverState) (reg : Nat)
    (hok : (tr.script s.t).1 = false) (hr : s.retries = 0) :
    readRegister tr s reg = ((false, 0), readFailState s reg 1) := by
  have h1 : (s.retries + 1).toNat = 1 := by rw [hr]; rfl
  have := readAttempts_allFail tr reg 1 s
    (by intro i hi; interval_cases i; simpa using hok)
  rw [readRegister, h1]
  exact this

end RetryLemmas

section BitLemmas

/-- A freshly OR-ed error bit tests as set. -/
theorem hasBit_set (x b : Nat) : ((x ||| 2 ^ b) &&& 2 ^ b) ≠ 0 := by
  rw [Nat.and_two_pow]
  have h1 : (x ||| 2 ^ b).testBit b = true := by
    rw [Nat.testBit_or, Nat.testBit_two_pow_self]
    simp
  rw [h1]
  simp

/-- Clearing an error bit (16-bit complement mask) makes it test as clear. -/
theorem hasBit_clear (x b : Nat) (hb : b < 16) :
    ((x &&& (65535 ^^^ 2 ^ b)) &&& 2 ^ b) = 0 := by
  rw [Nat.and_two_pow]
  have h1 : (x &&& (65535 ^^^ 2 ^ b)).testBit b = false := by
    rw [Nat.testBit_and, Nat.testBit_xor, show (65535 : Nat) = 2 ^ 16 - 1 by norm_num,
      Nat.testBit_two_pow_sub_one, Nat.testBit_two_pow_self]
    simp [hb]
  rw [h1]
  simp

/-- Clearing one error bit leaves a different bit unchanged. -/
theorem hasBit_clear_other (x b c : Nat) (hb : b < 16) (hbc : b ≠ c) :
    ((x &&& (65535 ^^^ 2 ^ c)) &&& 2 ^ b) = x &&& 2 ^ b := by
  rw [Nat.and_two_pow, Nat.and_two_pow]
  have h1 : (x &&& (65535 ^^^ 2 ^ c)).testBit b = x.testBit b := by
    rw [Nat.testBit_and, Nat.testBit_xor, show (65535 : Nat) = 2 ^ 16 - 1 by norm_num,
      Nat.testBit_two_pow_sub_one, Nat.testBit_two_pow_of_ne (fun h => hbc h.symm)]
    simp [hb]
  rw [h1]

/-- Setting one error bit leaves a different bit unchanged. -/
theorem hasBit_set_other (x b c : Nat) (hbc : b ≠ c) :
    ((x ||| 2 ^ c) &&& 2 ^ b) = x &&& 2 ^ b := by
  rw [Nat.and_two_pow, Nat.and_two_pow]
  have h1 : (x ||| 2 ^ c).testBit b = x.testBit b := by
    rw [Nat.testBit_or, Nat.testBit_two_pow_of_ne (fun h => hbc h.symm)]
    simp
  rw [h1]

end BitLemmas

/-- Claim C4: For every register read or write with retry setting `n` (via
`SetRetries(n)`, default `1` giving 2 total attempts): if the transport
fails exactly `k ≤ n` times and then succeeds, the operation returns
success and the corresponding `I2CReadFail`/`I2CWriteFail` flag is cleared,
with exactly `k + 1` transport attempts; if the transport fails `n + 1`
times, the operation fails after exactly `n + 1` attempts (so never more
than `n + 1`) and the flag is set; the flag is not cleared by successful
operations of the other kind, only by a success of the same kind or an
explicit `ClearErrorFlags`. -/
theorem C4_transaction_retries (tr : Transport) (s : DriverState) (reg val n k : Nat)
    (hn : s.retries = (n : Int)) :
    ((k ≤ n) → (∀ i, i < k → (tr.script (s.t + i)).1 = false) →
        (tr.script (s.t + k)).1 = true →
      writeRegister tr s reg val = (true, writeOkState s reg val (k + 1)) ∧
      HasError (writeOkState s reg val (k + 1)) Error.I2CWriteFail = false ∧
      (writeOkState s reg val (k + 1)).t = s.t + (k + 1) ∧
      readRegister tr s reg = ((true, (tr.script (s.t + k)).2 % 256), readOkState s reg (k + 1)) ∧
      HasError (readOkState s reg (k + 1)) Error.I2CReadFail = false ∧
      (readOkState s reg (k + 1)).t = s.t + (k + 1)) ∧
    ((∀ i, i < n + 1 → (tr.script (s.t + i)).1 = false) →
      writeRegister tr s reg val = (false, writeFailState s reg val (n + 1)) ∧
      HasError (writeFailState s reg val (n + 1)) Error.I2CWriteFail = true ∧
      (writeFailState s reg val (n + 1)).t = s.t + (n + 1) ∧
      readRegister tr s reg = ((false, 0), readFailState s reg (n + 1)) ∧
      HasError (readFailState s reg (n + 1)) Error.I2CReadFail = true ∧
      (readFailState s reg (n + 1)).t = s.t + (n + 1)) ∧
    (HasError (readOkState s reg (k + 1)) Error.I2CWriteFail
        = HasError s Error.I2CWriteFail ∧
      HasError (writeOkState s reg val (k + 1)) Error.I2CReadFail
        = HasError s Error.I2CReadFail ∧
      HasError (ClearErrorFlags s Error.I2CWriteFail) Error.I2CWriteFail = false ∧
      HasError (ClearErrorFlags s Error.I2CReadFail) Error.I2CReadFail = false) := by
  have hm : (s.retries + 1).toNat = n + 1 := by rw [hn]; omega
  refine ⟨fun hk hfail hok => ⟨?_, ?_, ?_, ?_, ?_, ?_⟩,
    fun hfail => ⟨?_, ?_, ?_, ?_, ?_, ?_⟩, ?_, ?_, ?_, ?_⟩
  · rw [writeRegister, hm]
    exact writeAttempts_firstOk tr reg val k (n + 1) s (by omega) hfail hok
  · simp only [HasError, writeOkState, Error.I2CWriteFail]
    rw [show (8 : Nat) = 2 ^ 3 by norm_num, hasBit_clear _ 3 (by omega)]
    simp
  · simp [writeOkState]
  · rw [readRegister, hm]
    exact readAttempts_firstOk tr reg k (n + 1) s (by omega) hfail hok
  · simp only [HasError, readOkState, Error.I2CReadFail]
    rw [show (4 : Nat) = 2 ^ 2 by norm_num, hasBit_clear _ 2 (by omega)]
    simp
  · simp [readOkState]
  · rw [writeRegister, hm]
    exact writeAttempts_allFail tr reg val (n + 1) s hfail
  · simp only [HasError, writeFailState, Error.I2CWriteFail]
    rw [show (8 : Nat) = 2 ^ 3 by norm_num]
    simpa using hasBit_set s.errorFlags 3
  · simp [writeFailState]
  · rw [readRegister, hm]
    exact readAttempts_allFail tr reg (n + 1) s hfail
  · simp only [HasError, readFailState, Error.I2CReadFail]
    rw [show (4 : Nat) = 2 ^ 2 by norm_num]
    simpa using hasBit_set s.errorFlags 2
  · simp [readFailState]
  · simp only [HasError, readOkState, Error.I2CReadFail, Error.I2CWriteFail]
    rw [show (8 : Nat) = 2 ^ 3 by norm_num, show (4 : Nat) = 2 ^ 2 by norm_num,
      hasBit_clear_other _ 3 2 (by omega) (by omega)]
  · simp only [HasError, writeOkState, Error.I2CReadFail, Error.I2CWriteFail]
    rw [show (8 : Nat) = 2 ^ 3 by norm_num, show (4 : Nat) = 2 ^ 2 by norm_num,
      hasBit_clear_other _ 2 3 (by omega) (by omega)]
  · simp only [HasError, ClearErrorFlags, Error.I2CWriteFail]
    rw [show (8 : Nat) = 2 ^ 3 by norm_num, hasBit_clear _ 3 (by omega)]
    simp
  · simp only [HasError, ClearErrorFlags, Error.I2CReadFail]
    rw [show (4 : Nat) = 2 ^ 2 by norm_num, hasBit_clear _ 2 (by omega)]
    simp

/-- Concrete run of `C4_transaction_retries`: driver at address `0x20`
(default retry setting `1`), transport failing once then acknowledging
(success after one retry), and the never-acknowledging transport
(exhaustion after 2 attempts). -/
theorem C4_transaction_retries_witness :
    (writeRegister trFlaky d20 2 0xAB = (true, writeOkState d20 2 0xAB 2) ∧
      HasError (writeOkState d20 2 0xAB 2) Error.I2CWriteFail = false) ∧
    (readRegister trDead d20 0 = ((false, 0), readFailState d20 0 2) ∧
      HasError (readFailState d20 0 2) Error.I2CReadFail = true) := by
  have h1 := (C4_transaction_retries trFlaky d20 2 0xAB 1 1 (by decide)).1
    (by decide) (by decide) (by decide)
  have h2 := (C4_transaction_retries trDead d20 0 0 1 0 (by decide)).2.1
    (by decide)
  exact ⟨⟨h1.1, h1.2.1⟩, ⟨h2.2.2.2.1, h2.2.2.2.2.1⟩⟩

/-- Claim C3: On an initialized driver whose variant is Base (`PCA9555`),
every extended-only operation (pull enable/direction, drive strength,
input latch, interrupt mask, interrupt status, output mode — single-pin and
list forms) returns `false` (`0` for `GetInterruptStatus`) and leaves the
state exactly `setError s UnsupportedFeature`: the flag is set and neither
the transport counter nor the trace moves, i.e. the guard runs before any
register read or write of the operation. -/
theorem C3_unsupported_feature_guard (tr : Transport) (s : DriverState)
    (pin mask : Nat) (en pullUp od0 od1 : Bool) (lvl : DriveStrength)
    (cfgsB : List (Nat × Bool)) (cfgsS : List (Nat × DriveStrength))
    (hinit : s.initialized = true) (hvar : s.chipVariant = ChipVariant.PCA9555) :
    SetPullEnable tr s pin en = (false, setError s Error.UnsupportedFeature) ∧
    SetPullDirection tr s pin pullUp = (false, setError s Error.UnsupportedFeature) ∧
    SetPullEnables tr s cfgsB = (false, setError s Error.UnsupportedFeature) ∧
    SetPullDirections tr s cfgsB = (false, setError s Error.UnsupportedFeature) ∧
    SetDriveStrength tr s pin lvl = (false, setError s Error.UnsupportedFeature) ∧
    SetDriveStrengths tr s cfgsS = (false, setError s Error.UnsupportedFeature) ∧
    EnableInputLatch tr s pin en = (false, setError s Error.UnsupportedFeature) ∧
    EnableInputLatches tr s cfgsB = (false, setError s Error.UnsupportedFeature) ∧
    ConfigureInterruptMask tr s mask = (false, setError s Error.UnsupportedFeature) ∧
    GetInterruptStatus tr s = (0, setError s Error.UnsupportedFeature) ∧
    SetOutputMode tr s od0 od1 = (false, setError s Error.UnsupportedFeature) ∧
    HasError (setError s Error.UnsupportedFeature) Error.UnsupportedFeature = true ∧
    (setError s Error.UnsupportedFeature).trace = s.trace ∧
    (setError s Error.UnsupportedFeature).t = s.t := by
  refine ⟨?_, ?_, ?_, ?_, ?_, ?_, ?_, ?_, ?_, ?_, ?_, ?_, ?_, ?_⟩
  · simp [SetPullEnable, EnsureInitialized, requireAgileIo, hinit, hvar]
  · simp [SetPullDirection, EnsureInitialized, requireAgileIo, hinit, hvar]
  · simp [SetPullEnables, EnsureInitialized, requireAgileIo, hinit, hvar]
  · simp [SetPullDirections, EnsureInitialized, requireAgileIo, hinit, hvar]
  · simp [SetDriveStrength, EnsureInitialized, requireAgileIo, hinit, hvar]
  · simp [SetDriveStrengths, EnsureInitialized, requireAgileIo, hinit, hvar]
  · simp [EnableInputLatch, EnsureInitialized, requireAgileIo, hinit, hvar]
  · simp [EnableInputLatches, EnsureInitialized, requireAgileIo, hinit, hvar]
  · simp [ConfigureInterruptMask, EnsureInitialized, requireAgileIo, hinit, hvar]
  · simp [GetInterruptStatus, EnsureInitialized, requireAgileIo, hinit, hvar]
  · simp [SetOutputMode, EnsureInitialized, requireAgileIo, hinit, hvar]
  · simp only [HasError, setError, Error.UnsupportedFeature]
    rw [show (16 : Nat) = 2 ^ 4 by norm_num]
    simpa using hasBit_set s.errorFlags 4
  · simp [setError]
  · simp [setError]

/-- Concrete run of `C3_unsupported_feature_guard` on the Base-variant
driver `sBase` obtained from an actual detection run. -/
theorem C3_unsupported_feature_guard_witness :
    sBase.initialized = true ∧ sBase.chipVariant = ChipVariant.PCA9555 ∧
    SetPullEnable trOk sBase 3 true = (false, setError sBase Error.UnsupportedFeature) ∧
    GetInterruptStatus trOk sBase = (0, setError sBase Error.UnsupportedFeature) := by
  have h := C3_unsupported_feature_guard trOk sBase 3 0xFFFF true true true true
    DriveStrength.Level2 [(1, true)] [(1, DriveStrength.Level2)] (by decide) (by decide)
  exact ⟨by decide, by decide, h.1, h.2.2.2.2.2.2.2.2.2.1⟩

/-- Claim C9: Constructing a driver from a raw 7-bit address performs no
transport I/O (empty trace, script untouched), clamps the stored address to
`[0x20, 0x27]` (`0x19 ↦ 0x20`, `0x30 ↦ 0x27`), and for every in-range
address stores `GetAddressBits() = address - 0x20` with the three pin
levels equal to the bits of that value. -/
theorem C9_constructor_clamp (addr : Nat) (variant : ChipVariant) :
    (PCAL95555ofAddress addr variant).trace = [] ∧
    (PCAL95555ofAddress addr variant).t = 0 ∧
    GetAddress (PCAL95555ofAddress 0x19 variant) = 0x20 ∧
    GetAddress (PCAL95555ofAddress 0x30 variant) = 0x27 ∧
    (0x20 ≤ addr → addr ≤ 0x27 →
      GetAddressBits (PCAL95555ofAddress addr variant) = addr - 0x20 ∧
      (PCAL95555ofAddress addr variant).a0 = (addr - 0x20).testBit 0 ∧
      (PCAL95555ofAddress addr variant).a1 = (addr - 0x20).testBit 1 ∧
      (PCAL95555ofAddress addr variant).a2 = (addr - 0x20).testBit 2) := by
  refine ⟨rfl, rfl, rfl, rfl, fun h1 h2 => ?_⟩
  interval_cases addr <;> exact ⟨rfl, rfl, rfl, rfl⟩

/-- Concrete run of `C9_constructor_clamp` at the in-range address `0x25`. -/
theorem C9_constructor_clamp_witness :
    GetAddressBits (PCAL95555ofAddress 0x25 ChipVariant.Unknown) = 5 ∧
    (PCAL95555ofAddress 0x25 ChipVariant.Unknown).a0 = true ∧
    (PCAL95555ofAddress 0x25 ChipVariant.Unknown).a1 = false ∧
    (PCAL95555ofAddress 0x25 ChipVariant.Unknown).a2 = true := by
  have h := (C9_constructor_clamp 0x25 ChipVariant.Unknown).2.2.2.2
    (by decide) (by decide)
  exact ⟨h.1, by rw [h.2.1]; decide, by rw [h.2.2.1]; decide, by rw [h.2.2.2]; decide⟩

section VariantPreservation

variable (tr : Transport)

/-- The retry loop of a read never touches the chip variant. -/
theorem readAttempts_chipVariant (reg m : Nat) (s : DriverState) :
    ((readAttempts tr reg m s).2).chipVariant = s.chipVariant := by
  induction m generalizing s with
  | zero => simp [readAttempts, setError]
  | succ n ih =>
    by_cases h : (tr.script s.t).1 = true <;>
      simp [readAttempts, busRead, h, clearError, ih]

/-- The retry loop of a write never touches the chip variant. -/
theorem writeAttempts_chipVariant (reg val m : Nat) (s : DriverState) :
    ((writeAttempts tr reg val m s).2).chipVariant = s.chipVariant := by
  induction m generalizing s with
  | zero => simp [writeAttempts, setError]
  | succ n ih =>
    by_cases h : (tr.script s.t).1 = true <;>
      simp [writeAttempts, busWrite, h, clearError, ih]

/-- Source `readRegister` never touches the chip variant. -/
theorem readRegister_chipVariant (s : DriverState) (reg : Nat) :
    ((readRegister tr s reg).2).chipVariant = s.chipVariant :=
  readAttempts_chipVariant tr reg _ s

/-- Source `writeRegister` never touches the chip variant. -/
theorem writeRegister_chipVariant (s : DriverState) (reg val : Nat) :
    ((writeRegister tr s reg val).2).chipVariant = s.chipVariant :=
  writeAttempts_chipVariant tr reg val _ s

/-- Source `readPinStates` never touches the chip variant. -/
theorem readPinStates_chipVariant (s : DriverState) :
    ((readPinStates tr s).2).chipVariant = s.chipVariant := by
  rcases h0 : readRegister tr s Reg.INPUT_PORT_0 with ⟨⟨ok0, v0⟩, s0⟩
  rcases h1 : readRegister tr s0 Reg.INPUT_PORT_1 with ⟨⟨ok1, v1⟩, s1⟩
  have e0 := readRegister_chipVariant tr s Reg.INPUT_PORT_0
  have e1 := readRegister_chipVariant tr s0 Reg.INPUT_PORT_1
  rw [h0] at e0
  rw [h1] at e1
  simp only [readPinStates, h0, h1]
  exact e1.trans e0

end VariantPreservation

section DetectionLemmas

variable (tr : Transport)

/-- Sandwich outcome: baseline ok, probe ok, recovery ok ⇒ Extended. -/
theorem detectChipVariant_ext (s : DriverState)
    (h1 : (tr.script s.t).1 = true) (h2 : (tr.script (s.t + 1)).1 = true)
    (h3 : (tr.script (s.t + 2)).1 = true) :
    (detectChipVariant tr s).chipVariant = ChipVariant.PCAL9555A := by
  have h3' : (tr.script (s.t + 1 + 1)).1 = true := by simpa [Nat.add_assoc] using h3
  simp [detectChipVariant, readRegister_ok, readOkState, clearError, h1, h2, h3']

/-- Sandwich outcome: baseline ok, probe NACK, recovery ok ⇒ Base. -/
theorem detectChipVariant_base (s : DriverState)
    (h1 : (tr.script s.t).1 = true) (h2 : (tr.script (s.t + 1)).1 = false)
    (h3 : (tr.script (s.t + 2)).1 = true) :
    (detectChipVariant tr s).chipVariant = ChipVariant.PCA9555 := by
  have h3' : (tr.script (s.t + 1 + 1)).1 = true := by simpa [Nat.add_assoc] using h3
  simp [detectChipVariant, readRegister_ok, readRegister_fail0, readOkState, readFailState,
    clearError, h1, h2, h3']

/-- Sandwich outcome: the baseline read fails ⇒ variant untouched. -/
theorem detectChipVariant_step1Fail (s : DriverState)
    (h1 : (tr.script s.t).1 = false) :
    (detectChipVariant tr s).chipVariant = s.chipVariant := by
  simp [detectChipVariant, readRegister_fail0, readFailState, clearError, h1]

/-- Sandwich outcome: the recovery read fails (after either probe outcome)
⇒ variant untouched. -/
theorem detectChipVariant_recFail (s : DriverState)
    (h1 : (tr.script s.t).1 = true) (h3 : (tr.script (s.t + 2)).1 = false) :
    (detectChipVariant tr s).chipVariant = s.chipVariant := by
  have h3' : (tr.script (s.t + 1 + 1)).1 = false := by simpa [Nat.add_assoc] using h3
  by_cases h2 : (tr.script (s.t + 1)).1 = true
  · simp [detectChipVariant, readRegister_ok, readRegister_fail0, readOkState, readFailState,
      clearError, h1, h2, h3']
  · simp only [Bool.not_eq_true] at h2
    simp [detectChipVariant, readRegister_ok, readRegister_fail0, readOkState, readFailState,
      clearError, h1, h2, h3']

/-- During auto-detecting initialization (bus ready, communication-verify
read acknowledged, no user-forced variant) the final variant is exactly the
verdict of `detectChipVariant` started right after the verify read. -/
theorem initDriver_variant_auto (s : DriverState)
    (hbus : tr.ensureInitOk = true) (hr : 0 ≤ s.retries) (h0 : (tr.script s.t).1 = true)
    (huser : s.userVariant = ChipVariant.Unknown) :
    GetChipVariant (initDriver tr s).2 =
      (detectChipVariant tr (clearError (readOkState s Reg.INPUT_PORT_0 1)
        Error.I2CReadFail)).chipVariant := by
  simp only [initDriver, hbus, Bool.true_eq_false, if_false]
  rw [readRegister_ok tr s Reg.INPUT_PORT_0 h0 hr]
  simp only [Bool.true_eq_false, if_false]
  have huser2 : (clearError (readOkState s Reg.INPUT_PORT_0 1)
      Error.I2CReadFail).userVariant = ChipVariant.Unknown := by
    simpa [clearError, readOkState] using huser
  rw [if_pos huser2]
  rcases hps : readPinStates tr (detectChipVariant tr (clearError
      (readOkState s Reg.INPUT_PORT_0 1) Error.I2CReadFail)) with ⟨ps, s2⟩
  have e := readPinStates_chipVariant tr (detectChipVariant tr (clearError
      (readOkState s Reg.INPUT_PORT_0 1) Error.I2CReadFail))
  rw [hps] at e
  simp only [GetChipVariant]
  simpa using e

end DetectionLemmas

/-- Claim C1: For every scripted transport and a driver with no caller-forced
variant (`user_variant_ = Unknown`, `chip_variant_` still `Unknown`), with
the bus ready and the initialize communication-verify read acknowledged on
its first attempt: during initialization, if the detection baseline read,
the extended-bank probe read, and the baseline recovery read all succeed,
`GetChipVariant()` is `PCAL9555A` (Extended); if the probe read fails but
the recovery read succeeds, it is `PCA9555` (Base); if the baseline read
fails, or the recovery read fails, it remains `Unknown`. -/
theorem C1_chip_variant_detection (tr : Transport) (s : DriverState)
    (huser : s.userVariant = ChipVariant.Unknown)
    (hchip : s.chipVariant = ChipVariant.Unknown)
    (hbus : tr.ensureInitOk = true)
    (hr : 0 ≤ s.retries)
    (h0 : (tr.script s.t).1 = true) :
    ((tr.script (s.t + 1)).1 = true → (tr.script (s.t + 2)).1 = true →
        (tr.script (s.t + 3)).1 = true →
      GetChipVariant (initDriver tr s).2 = ChipVariant.PCAL9555A) ∧
    ((tr.script (s.t + 1)).1 = true → (tr.script (s.t + 2)).1 = false →
        (tr.script (s.t + 3)).1 = true →
      GetChipVariant (initDriver tr s).2 = ChipVariant.PCA9555) ∧
    ((tr.script (s.t + 1)).1 = false →
      GetChipVariant (initDriver tr s).2 = ChipVariant.Unknown) ∧
    ((tr.script (s.t + 1)).1 = true → (tr.script (s.t + 3)).1 = false →
      GetChipVariant (initDriver tr s).2 = ChipVariant.Unknown) := by
  have hA := initDriver_variant_auto tr s hbus hr h0 huser
  have htD : (clearError (readOkState s Reg.INPUT_PORT_0 1) Error.I2CReadFail).t
      = s.t + 1 := by simp [clearError, readOkState]
  have hcD : (clearError (readOkState s Reg.INPUT_PORT_0 1) Error.I2CReadFail).chipVariant
      = s.chipVariant := by simp [clearError, readOkState]
  refine ⟨fun d1 d2 d3 => ?_, fun d1 d2 d3 => ?_, fun d1 => ?_, fun d1 d3 => ?_⟩
  · rw [hA]
    exact detectChipVariant_ext tr _ (by rw [htD]; exact d1)
      (by rw [htD]; simpa [Nat.add_assoc] using d2)
      (by rw [htD]; simpa [Nat.add_assoc] using d3)
  · rw [hA]
    exact detectChipVariant_base tr _ (by rw [htD]; exact d1)
      (by rw [htD]; simpa [Nat.add_assoc] using d2)
      (by rw [htD]; simpa [Nat.add_assoc] using d3)
  · rw [hA, detectChipVariant_step1Fail tr _ (by rw [htD]; exact d1), hcD, hchip]
  · rw [hA, detectChipVariant_recFail tr _ (by rw [htD]; exact d1)
      (by rw [htD]; simpa [Nat.add_assoc] using d3), hcD, hchip]

/-- Concrete runs of `C1_chip_variant_detection`: the all-acknowledging
transport yields Extended; the transport that NACKs only the probe read
yields Base. -/
theorem C1_chip_variant_detection_witness :
    GetChipVariant (initDriver trOk d20).2 = ChipVariant.PCAL9555A ∧
    GetChipVariant (initDriver trBase d20).2 = ChipVariant.PCA9555 := by
  have hA := (C1_chip_variant_detection trOk d20 rfl rfl rfl (by decide)
    (by decide)).1 (by decide) (by decide) (by decide)
  have hB := (C1_chip_variant_detection trBase d20 rfl rfl rfl (by decide)
    (by decide)).2.1 (by decide) (by decide) (by decide)
  exact ⟨hA, hB⟩

/-- A list containing an out-of-range pin makes the shared fold loop bail
out (`setError(InvalidPin); return false` at the first such entry),
wherever the bad entry sits. -/
theorem foldPortPair_none {α : Type} (f : α → Bool) (cfgs : List (Nat × α))
    (hbad : ∃ c ∈ cfgs, 16 ≤ c.1) :
    ∀ p0 p1, foldPortPair f cfgs p0 p1 = none := by
  induction cfgs with
  | nil => simp at hbad
  | cons c rest ih =>
    intro p0 p1
    rcases c with ⟨pin, v⟩
    by_cases hp : 16 ≤ pin
    · simp [foldPortPair, hp]
    · have hrest : ∃ c ∈ rest, 16 ≤ c.1 := by
        rcases hbad with ⟨d, hd, h16⟩
        rcases List.mem_cons.mp hd with rfl | hd2
        · exact absurd h16 (by simpa using hp)
        · exact ⟨d, hd2, h16⟩
      by_cases hlt : pin < 8 <;> simp [foldPortPair, hp, hlt, ih hrest]

/-- Same bail-out property for the drive-strength fold loop. -/
theorem foldDrive_none (cfgs : List (Nat × DriveStrength))
    (hbad : ∃ c ∈ cfgs, 16 ≤ c.1) :
    ∀ d0 d1 d2 d3, foldDrive cfgs d0 d1 d2 d3 = none := by
  induction cfgs with
  | nil => simp at hbad
  | cons c rest ih =>
    intro d0 d1 d2 d3
    rcases c with ⟨pin, v⟩
    by_cases hp : 16 ≤ pin
    · simp [foldDrive, hp]
    · have hrest : ∃ c ∈ rest, 16 ≤ c.1 := by
        rcases hbad with ⟨d, hd, h16⟩
        rcases List.mem_cons.mp hd with rfl | hd2
        · exact absurd h16 (by simpa using hp)
        · exact ⟨d, hd2, h16⟩
      by_cases hlt : pin < 8 <;> by_cases h4 : 4 ≤ pin % 8 <;>
        simp [foldDrive, hp, hlt, h4, ih hrest]

/-- Claim C5: On an initialized driver (Extended variant, so the extended
batches pass their feature guard) with an all-acknowledging transport,
every list-based batch operation given a list containing a pin `≥ 16`
returns `false`, sets `InvalidPin`, and issues no register write: the trace
grows only by the operation's initial register reads, wherever the invalid
pin appears in the list. -/
theorem C5_batch_abort_before_write (tr : Transport) (s : DriverState)
    (cfgsB : List (Nat × Bool)) (cfgsD : List (Nat × GPIODir))
    (cfgsP : List (Nat × Polarity)) (cfgsS : List (Nat × DriveStrength))
    (hinit : s.initialized = true)
    (hvar : s.chipVariant = ChipVariant.PCAL9555A)
    (hall : ∀ i, (tr.script i).1 = true)
    (hr : 0 ≤ s.retries)
    (hbadB : ∃ c ∈ cfgsB, 16 ≤ c.1) (hbadD : ∃ c ∈ cfgsD, 16 ≤ c.1)
    (hbadP : ∃ c ∈ cfgsP, 16 ≤ c.1) (hbadS : ∃ c ∈ cfgsS, 16 ≤ c.1) :
    ((WritePins tr s cfgsB).1 = false ∧
      HasError (WritePins tr s cfgsB).2 Error.InvalidPin = true ∧
      (WritePins tr s cfgsB).2.trace = s.trace ++
        [TOp.read s.devAddr Reg.OUTPUT_PORT_0, TOp.read s.devAddr Reg.OUTPUT_PORT_1]) ∧
    ((SetDirections tr s cfgsD).1 = false ∧
      HasError (SetDirections tr s cfgsD).2 Error.InvalidPin = true ∧
      (SetDirections tr s cfgsD).2.trace = s.trace ++
        [TOp.read s.devAddr Reg.CONFIG_PORT_0, TOp.read s.devAddr Reg.CONFIG_PORT_1]) ∧
    ((SetPolarities tr s cfgsP).1 = false ∧
      HasError (SetPolarities tr s cfgsP).2 Error.InvalidPin = true ∧
      (SetPolarities tr s cfgsP).2.trace = s.trace ++
        [TOp.read s.devAddr Reg.POLARITY_INV_0, TOp.read s.devAddr Reg.POLARITY_INV_1]) ∧
    ((SetPullEnables tr s cfgsB).1 = false ∧
      HasError (SetPullEnables tr s cfgsB).2 Error.InvalidPin = true ∧
      (SetPullEnables tr s cfgsB).2.trace = s.trace ++
        [TOp.read s.devAddr Reg.PULL_ENABLE_0, TOp.read s.devAddr Reg.PULL_ENABLE_1]) ∧
    ((SetPullDirections tr s cfgsB).1 = false ∧
      HasError (SetPullDirections tr s cfgsB).2 Error.InvalidPin = true ∧
      (SetPullDirections tr s cfgsB).2.trace = s.trace ++
        [TOp.read s.devAddr Reg.PULL_SELECT_0, TOp.read s.devAddr Reg.PULL_SELECT_1]) ∧
    ((EnableInputLatches tr s cfgsB).1 = false ∧
      HasError (EnableInputLatches tr s cfgsB).2 Error.InvalidPin = true ∧
      (EnableInputLatches tr s cfgsB).2.trace = s.trace ++
        [TOp.read s.devAddr Reg.INPUT_LATCH_0, TOp.read s.devAddr Reg.INPUT_LATCH_1]) ∧
    ((SetDriveStrengths tr s cfgsS).1 = false ∧
      HasError (SetDriveStrengths tr s cfgsS).2 Error.InvalidPin = true ∧
      (SetDriveStrengths tr s cfgsS).2.trace = s.trace ++
        [TOp.read s.devAddr Reg.DRIVE_STRENGTH_0, TOp.read s.devAddr Reg.DRIVE_STRENGTH_1,
          TOp.read s.devAddr Reg.DRIVE_STRENGTH_2, TOp.read s.devAddr Reg.DRIVE_STRENGTH_3]) := by
  have hfoldB := foldPortPair_none (α := Bool) (fun b => b) cfgsB hbadB
  have hfoldD := foldPortPair_none (fun d => d == GPIODir.Input) cfgsD hbadD
  have hfoldP := foldPortPair_none (fun p => p == Polarity.Inverted) cfgsP hbadP
  have hfoldS := foldDrive_none cfgsS hbadS
  refine ⟨⟨?_, ?_, ?_⟩, ⟨?_, ?_, ?_⟩, ⟨?_, ?_, ?_⟩, ⟨?_, ?_, ?_⟩, ⟨?_, ?_, ?_⟩,
    ⟨?_, ?_, ?_⟩, ⟨?_, ?_, ?_⟩⟩ <;>
  · simp only [WritePins, SetDirections, SetPolarities, SetPullEnables, SetPullDirections,
      EnableInputLatches, SetDriveStrengths, EnsureInitialized, hinit, if_true,
      readDualPort, requireAgileIo, hvar]
    simp [readRegister_ok, readOkState, hall, hr, hfoldB, hfoldD, hfoldP, hfoldS,
      setError, HasError, Error.InvalidPin, clearError]

/-- Concrete run of `C5_batch_abort_before_write`: lists whose second entry
uses pin 20 on the initialized Extended-variant driver `sExt`. -/
theorem C5_batch_abort_before_write_witness :
    (WritePins trOk sExt [(0, true), (20, false)]).1 = false ∧
    HasError (WritePins trOk sExt [(0, true), (20, false)]).2 Error.InvalidPin = true ∧
    (SetDriveStrengths trOk sExt [(20, DriveStrength.Level1)]).1 = false := by
  have h := C5_batch_abort_before_write trOk sExt
    [(0, true), (20, false)] [(20, GPIODir.Input)] [(20, Polarity.Normal)]
    [(20, DriveStrength.Level1)]
    (by decide) (by decide) (fun i => rfl) (by decide)
    (by decide) (by decide) (by decide) (by decide)
  exact ⟨h.1.1, h.1.2.1, h.2.2.2.2.2.2.1⟩

/-- Claim C10: `ReadPins` on an initialized driver given a list containing a
pin `≥ 16` does not abort and does not set `InvalidPin` (the flag is left
exactly as it was): it still performs its two input-register reads, pairs
every out-of-range pin with `false` in the returned vector, and pairs every
valid pin with its read input level. -/
theorem C10_readpins_tolerates_invalid (tr : Transport) (s : DriverState) (pins : List Nat)
    (hinit : s.initialized = true)
    (hall : ∀ i, (tr.script i).1 = true)
    (hr : 0 ≤ s.retries) :
    (ReadPins tr s pins).1 = pins.map (fun pin =>
      if 16 ≤ pin then (pin, false)
      else if pin < 8 then
        (pin, (((tr.script s.t).2 % 256) &&& (1 <<< (pin % 8))) != 0)
      else
        (pin, (((tr.script (s.t + 1)).2 % 256) &&& (1 <<< (pin % 8))) != 0)) ∧
    HasError (ReadPins tr s pins).2 Error.InvalidPin = HasError s Error.InvalidPin ∧
    (ReadPins tr s pins).2.trace = s.trace ++
      [TOp.read s.devAddr Reg.INPUT_PORT_0, TOp.read s.devAddr Reg.INPUT_PORT_1] ∧
    (∀ p ∈ pins, 16 ≤ p → (p, false) ∈ (ReadPins tr s pins).1) := by
  have h1 : (ReadPins tr s pins).1 = pins.map (fun pin =>
      if 16 ≤ pin then (pin, false)
      else if pin < 8 then
        (pin, (((tr.script s.t).2 % 256) &&& (1 <<< (pin % 8))) != 0)
      else
        (pin, (((tr.script (s.t + 1)).2 % 256) &&& (1 <<< (pin % 8))) != 0)) := by
    simp [ReadPins, EnsureInitialized, hinit, readRegister_ok, readOkState, hall, hr]
  refine ⟨h1, ?_, ?_, ?_⟩
  · have h2 : (ReadPins tr s pins).2 =
        readOkState (readOkState s Reg.INPUT_PORT_0 1) Reg.INPUT_PORT_1 1 := by
      simp [ReadPins, EnsureInitialized, hinit, readRegister_ok, readOkState, hall, hr]
    rw [h2]
    simp only [HasError, readOkState, Error.InvalidPin, Error.I2CReadFail]
    rw [show (4 : Nat) = 2 ^ 2 by decide, show (1 : Nat) = 2 ^ 0 by decide,
      hasBit_clear_other _ 0 2 (by omega) (by omega),
      hasBit_clear_other _ 0 2 (by omega) (by omega)]
  · simp only [ReadPins, EnsureInitialized, hinit, if_true]
    rw [readRegister_ok tr s _ (hall _) hr]
    simp [readRegister_ok, readOkState, hall, hr]
  · intro p hp h16
    rw [h1]
    exact List.mem_map.mpr ⟨p, hp, by simp [h16]⟩

/-- Concrete run of `C10_readpins_tolerates_invalid` on `sExt` with the pin
list `[0, 20, 9]`: pin 20 comes back paired with `false`, the valid pins
with their read levels, and `InvalidPin` stays clear. -/
theorem C10_readpins_tolerates_invalid_witness :
    (ReadPins trOk sExt [0, 20, 9]).1 = [(0, true), (20, false), (9, false)] ∧
    HasError (ReadPins trOk sExt [0, 20, 9]).2 Error.InvalidPin = false := by
  have h := C10_readpins_tolerates_invalid trOk sExt [0, 20, 9]
    (by decide) (fun i => rfl) (by decide)
  exact ⟨by rw [h.1]; decide, by rw [h.2.1]; decide⟩

/-- Full reduction of a Base-variant `HandleInterrupt` run under an
all-acknowledging transport: the changed mask is the XOR of the freshly
read input word against `previous_pin_states_`, and the trace grows by four
input-register reads (two for the software diff, two for the current
states). -/
theorem HandleInterrupt_base_run (tr : Transport) (s : DriverState)
    (hinit : s.initialized = true)
    (hb : s.chipVariant = ChipVariant.PCA9555)
    (hall : ∀ i, (tr.script i).1 = true) (hr : 0 ≤ s.retries) :
    (HandleInterrupt tr s).2 =
      (if s.irqRegistered then
        [Event.globalCb (((((tr.script (s.t + 1)).2 % 256) <<< 8) |||
          ((tr.script s.t).2 % 256)) ^^^ s.previousPinStates)] else []) ++
      dispatchLoop (((((tr.script (s.t + 1)).2 % 256) <<< 8) |||
          ((tr.script s.t).2 % 256)) ^^^ s.previousPinStates)
        s.previousPinStates
        ((((tr.script (s.t + 3)).2 % 256) <<< 8) ||| ((tr.script (s.t + 2)).2 % 256))
        s.pinCallbacks ∧
    (HandleInterrupt tr s).1.trace = s.trace ++
      [TOp.read s.devAddr Reg.INPUT_PORT_0, TOp.read s.devAddr Reg.INPUT_PORT_1,
        TOp.read s.devAddr Reg.INPUT_PORT_0, TOp.read s.devAddr Reg.INPUT_PORT_1] := by
  constructor <;>
    simp [HandleInterrupt, EnsureInitialized, hinit, hb, readPinStates,
      readRegister_ok, readOkState, hall, hr, Nat.add_assoc]

/-- Full reduction of an Extended-variant `HandleInterrupt` run under an
all-acknowledging transport: the changed mask is the 16-bit word read from
the interrupt-status registers. -/
theorem HandleInterrupt_ext_run (tr : Transport) (s : DriverState)
    (hinit : s.initialized = true)
    (hb : s.chipVariant = ChipVariant.PCAL9555A)
    (hall : ∀ i, (tr.script i).1 = true) (hr : 0 ≤ s.retries) :
    (HandleInterrupt tr s).2 =
      (if s.irqRegistered then
        [Event.globalCb ((((tr.script (s.t + 1)).2 % 256) <<< 8) |||
          ((tr.script s.t).2 % 256))] else []) ++
      dispatchLoop ((((tr.script (s.t + 1)).2 % 256) <<< 8) ||| ((tr.script s.t).2 % 256))
        s.previousPinStates
        ((((tr.script (s.t + 3)).2 % 256) <<< 8) ||| ((tr.script (s.t + 2)).2 % 256))
        s.pinCallbacks ∧
    (HandleInterrupt tr s).1.trace = s.trace ++
      [TOp.read s.devAddr Reg.INT_STATUS_0, TOp.read s.devAddr Reg.INT_STATUS_1,
        TOp.read s.devAddr Reg.INPUT_PORT_0, TOp.read s.devAddr Reg.INPUT_PORT_1] := by
  constructor <;>
    simp [HandleInterrupt, GetInterruptStatus, requireAgileIo, EnsureInitialized, hinit, hb,
      readPinStates, readRegister_ok, readOkState, hall, hr, Nat.add_assoc]

/-- Claim C2: On an initialized driver with a registered global callback and
an all-acknowledging transport: on the Base variant the 16-bit changed mask
passed to the global callback (and fed to the per-pin dispatch loop) is the
freshly read input word XOR-ed against `previous_pin_states_`, and the
operation never reads the interrupt-status registers (its trace delta is
exactly four input-register reads); on the Extended variant the changed
mask is the word read from the interrupt-status registers (the first two
accesses of the trace delta). -/
theorem C2_changed_mask_by_variant (tr : Transport) (s : DriverState)
    (hinit : s.initialized = true)
    (hall : ∀ i, (tr.script i).1 = true) (hr : 0 ≤ s.retries)
    (hirq : s.irqRegistered = true) :
    (s.chipVariant = ChipVariant.PCA9555 →
      (HandleInterrupt tr s).2 =
        Event.globalCb (((((tr.script (s.t + 1)).2 % 256) <<< 8) |||
            ((tr.script s.t).2 % 256)) ^^^ s.previousPinStates) ::
          dispatchLoop (((((tr.script (s.t + 1)).2 % 256) <<< 8) |||
              ((tr.script s.t).2 % 256)) ^^^ s.previousPinStates)
            s.previousPinStates
            ((((tr.script (s.t + 3)).2 % 256) <<< 8) ||| ((tr.script (s.t + 2)).2 % 256))
            s.pinCallbacks ∧
      (HandleInterrupt tr s).1.trace = s.trace ++
        [TOp.read s.devAddr Reg.INPUT_PORT_0, TOp.read s.devAddr Reg.INPUT_PORT_1,
          TOp.read s.devAddr Reg.INPUT_PORT_0, TOp.read s.devAddr Reg.INPUT_PORT_1] ∧
      (∀ op ∈ ((HandleInterrupt tr s).1.trace.drop s.trace.length),
        TOp.reg op ≠ Reg.INT_STATUS_0 ∧ TOp.reg op ≠ Reg.INT_STATUS_1)) ∧
    (s.chipVariant = ChipVariant.PCAL9555A →
      (HandleInterrupt tr s).2 =
        Event.globalCb ((((tr.script (s.t + 1)).2 % 256) <<< 8) |||
            ((tr.script s.t).2 % 256)) ::
          dispatchLoop ((((tr.script (s.t + 1)).2 % 256) <<< 8) |||
              ((tr.script s.t).2 % 256))
            s.previousPinStates
            ((((tr.script (s.t + 3)).2 % 256) <<< 8) ||| ((tr.script (s.t + 2)).2 % 256))
            s.pinCallbacks ∧
      (HandleInterrupt tr s).1.trace = s.trace ++
        [TOp.read s.devAddr Reg.INT_STATUS_0, TOp.read s.devAddr Reg.INT_STATUS_1,
          TOp.read s.devAddr Reg.INPUT_PORT_0, TOp.read s.devAddr Reg.INPUT_PORT_1]) := by
  constructor
  · intro hb
    have h := HandleInterrupt_base_run tr s hinit hb hall hr
    refine ⟨by rw [h.1, hirq]; simp, h.2, ?_⟩
    intro op hop
    rw [h.2, List.drop_left] at hop
    simp only [List.mem_cons, List.not_mem_nil, or_false] at hop
    rcases hop with rfl | rfl | rfl | rfl <;>
      exact ⟨by simp [TOp.reg, Reg.INPUT_PORT_0, Reg.INPUT_PORT_1, Reg.INT_STATUS_0],
        by simp [TOp.reg, Reg.INPUT_PORT_0, Reg.INPUT_PORT_1, Reg.INT_STATUS_1]⟩
  · intro hb
    have h := HandleInterrupt_ext_run tr s hinit hb hall hr
    exact ⟨by rw [h.1, hirq]; simp, h.2⟩

/-- Concrete run of `C2_changed_mask_by_variant` on the Base-variant driver
`sBase` with a registered global callback: the emitted global mask is the
input word `0x3CA5` read from `trOk` XOR-ed against the cached previous
states `0x1111`. -/
theorem C2_changed_mask_by_variant_witness :
    (HandleInterrupt trOk (SetInterruptCallback sBase true)).2.head? =
      some (Event.globalCb (0x3CA5 ^^^ 0x1111)) := by
  have h := (C2_changed_mask_by_variant trOk (SetInterruptCallback sBase true)
    (by decide) (fun i => rfl) (by decide) rfl).1 (by decide)
  rw [h.1]
  decide


theorem and_shift_eq_zero_iff (x p : Nat) :
    (x &&& (1 <<< p)) = 0 ↔ x.testBit p = false := by
  rw [Nat.one_shiftLeft, Nat.and_two_pow]
  cases h : x.testBit p <;> simp [h]

theorem pinDispatch_subset (status prev cur : Nat) (slot : PinInterruptCallback) (q : Nat) :
    ∀ e ∈ pinDispatch status prev cur slot q, ∃ b, e = Event.pinCb q b := by
  intro e he
  unfold pinDispatch at he
  by_cases h1 : (status &&& (1 <<< q)) = 0
  · simp [h1] at he
  · rw [if_neg h1] at he
    simp at he
    obtain ⟨-, -, rfl⟩ := he
    exact ⟨_, rfl⟩

theorem count_pinDispatch_ne (status prev cur : Nat) (slot : PinInterruptCallback)
    (q p : Nat) (b : Bool) (hqp : q ≠ p) :
    (pinDispatch status prev cur slot q).count (Event.pinCb p b) = 0 := by
  rw [List.count_eq_zero]
  intro hmem
  obtain ⟨b2, hb2⟩ := pinDispatch_subset status prev cur slot q _ hmem
  exact hqp (by injection hb2 with h1 h2; exact h1.symm)

theorem count_flatMap_zero (f : Nat → List Event) (e : Event) (l : List Nat)
    (h : ∀ q ∈ l, (f q).count e = 0) : ((l.flatMap f).count e) = 0 := by
  rw [List.count_eq_zero]
  intro hmem
  rcases List.mem_flatMap.mp hmem with ⟨q, hq, hin⟩
  exact absurd hin (List.count_eq_zero.mp (h q hq))

theorem count_dispatchLoop (status prev cur : Nat) (cbs : Nat → PinInterruptCallback)
    (p : Nat) (b : Bool) (hp : p < 16) :
    (dispatchLoop status prev cur cbs).count (Event.pinCb p b) =
      (pinDispatch status prev cur (cbs p) p).count (Event.pinCb p b) := by
  unfold dispatchLoop
  have key : ∀ n : Nat, p < n →
      (((List.range n).flatMap fun q => pinDispatch status prev cur (cbs q) q).count
        (Event.pinCb p b)) =
      (pinDispatch status prev cur (cbs p) p).count (Event.pinCb p b) := by
    intro n
    induction n with
    | zero => omega
    | succ m ih =>
      intro hpm
      rw [List.range_succ, List.flatMap_append, List.count_append]
      simp only [List.flatMap_cons, List.flatMap_nil, List.append_nil]
      by_cases he : p = m
      · subst he
        rw [count_flatMap_zero _ _ _ (fun q hq =>
          count_pinDispatch_ne status prev cur (cbs q) q p b
            (by simp only [List.mem_range] at hq; omega))]
        omega
      · rw [ih (by omega), count_pinDispatch_ne status prev cur (cbs m) m p b (by omega)]
        omega
  exact key 16 hp

theorem pinDispatch_rising_fires (status prev cur : Nat) (p : Nat)
    (hstat : status.testBit p = true)
    (hprev : prev.testBit p = false)
    (hcur : cur.testBit p = true) :
    pinDispatch status prev cur ⟨true, InterruptEdge.Rising, true⟩ p =
      [Event.pinCb p true] := by
  have h1 : ¬ (status &&& (1 <<< p)) = 0 := by
    rw [and_shift_eq_zero_iff]; simp [hstat]
  have h2 : (prev &&& (1 <<< p)) = 0 := (and_shift_eq_zero_iff prev p).mpr hprev
  have h3 : ¬ (cur &&& (1 <<< p)) = 0 := by
    rw [and_shift_eq_zero_iff]; simp [hcur]
  simp [pinDispatch, h1, h2, h3]

theorem pinDispatch_falling_silent (status prev cur : Nat) (p : Nat)
    (hprev : prev.testBit p = false) :
    pinDispatch status prev cur ⟨true, InterruptEdge.Falling, true⟩ p = [] := by
  have h2 : (prev &&& (1 <<< p)) = 0 := (and_shift_eq_zero_iff prev p).mpr hprev
  by_cases h1 : (status &&& (1 <<< p)) = 0 <;> simp [pinDispatch, h1, h2]

/-- Claim C8: during `HandleInterrupt` (Base variant, stationary inputs so
the diff read and the current-states read agree), a pin whose changed-mask
bit is set (here forced by previous bit 0 and current bit 1) and whose
registered callback has edge filter `Rising` is invoked exactly once with
`state = true` (and never with `state = false`); the same low-to-high
transition invokes no callback registered with edge filter `Falling` on
that pin. -/
theorem C8_rising_edge_dispatch (tr : Transport) (s : DriverState) (p : Nat)
    (hinit : s.initialized = true) (hb : s.chipVariant = ChipVariant.PCA9555)
    (hall : ∀ i, (tr.script i).1 = true) (hr : 0 ≤ s.retries) (hp : p < 16)
    (hs2 : tr.script (s.t + 2) = tr.script s.t)
    (hs3 : tr.script (s.t + 3) = tr.script (s.t + 1))
    (hprev : s.previousPinStates.testBit p = false)
    (hcur : ((((tr.script (s.t + 1)).2 % 256) <<< 8) |||
      ((tr.script s.t).2 % 256)).testBit p = true) :
    (s.pinCallbacks p = ⟨true, InterruptEdge.Rising, true⟩ →
      (HandleInterrupt tr s).2.count (Event.pinCb p true) = 1 ∧
      (HandleInterrupt tr s).2.count (Event.pinCb p false) = 0) ∧
    (s.pinCallbacks p = ⟨true, InterruptEdge.Falling, true⟩ →
      ∀ b, Event.pinCb p b ∉ (HandleInterrupt tr s).2) := by
  have hev := (HandleInterrupt_base_run tr s hinit hb hall hr).1
  rw [hs2, hs3] at hev
  have hglobal : ∀ b : Bool,
      (if s.irqRegistered then
        [Event.globalCb (((((tr.script (s.t + 1)).2 % 256) <<< 8) |||
          ((tr.script s.t).2 % 256)) ^^^ s.previousPinStates)] else []).count
        (Event.pinCb p b) = 0 := by
    intro b
    by_cases hi : s.irqRegistered <;> simp [hi]
  have hstat : ((((((tr.script (s.t + 1)).2 % 256) <<< 8) |||
      ((tr.script s.t).2 % 256)) ^^^ s.previousPinStates)).testBit p = true := by
    rw [Nat.testBit_xor, hprev, hcur]
    rfl
  constructor
  · intro hslot
    constructor
    · rw [hev, List.count_append, hglobal true,
        count_dispatchLoop _ _ _ _ p true hp, hslot,
        pinDispatch_rising_fires _ _ _ p hstat hprev hcur]
      simp
    · rw [hev, List.count_append, hglobal false,
        count_dispatchLoop _ _ _ _ p false hp, hslot,
        pinDispatch_rising_fires _ _ _ p hstat hprev hcur]
      simp
  · intro hslot b
    rw [hev]
    intro hmem
    rcases List.mem_append.mp hmem with hm | hm
    · exact absurd hm (List.count_eq_zero.mp (hglobal b))
    · have hz : (dispatchLoop (((((tr.script (s.t + 1)).2 % 256) <<< 8) |||
          ((tr.script s.t).2 % 256)) ^^^ s.previousPinStates) s.previousPinStates
          ((((tr.script (s.t + 1)).2 % 256) <<< 8) ||| ((tr.script s.t).2 % 256))
          s.pinCallbacks).count (Event.pinCb p b) = 0 := by
        rw [count_dispatchLoop _ _ _ _ p b hp, hslot, pinDispatch_falling_silent]
        · rfl
        · exact hprev
      exact absurd hm (List.count_eq_zero.mp hz)


/-- Concrete run of `C8_rising_edge_dispatch`: on `sReg` (Rising callback
registered on pin 1, previous states `0x3CA5`) a `HandleInterrupt` against
`trTwo` (inputs read as `0x0202`, a low-to-high transition on pin 1) fires
the pin-1 callback exactly once with `state = true`. -/
theorem C8_rising_edge_dispatch_witness :
    (HandleInterrupt trTwo sReg).2.count (Event.pinCb 1 true) = 1 ∧
    (HandleInterrupt trTwo sReg).2.count (Event.pinCb 1 false) = 0 := by
  exact (C8_rising_edge_dispatch trTwo sReg 1 (by decide) (by decide) (fun i => rfl)
    (by decide) (by decide) rfl rfl (by decide) (by decide)).1 (by decide)

end pcal95555

namespace pcal95555

theorem requireAgileIo_chipVariant (s : DriverState) :
    ((requireAgileIo s).2).chipVariant = s.chipVariant := by
  unfold requireAgileIo
  split <;> simp [setError]

theorem modifySinglePinRegister_chipVariant (tr : Transport) (s : DriverState)
    (r0 r1 pin : Nat) (b : Bool) :
    ((modifySinglePinRegister tr s r0 r1 pin b).2).chipVariant = s.chipVariant := by
  rcases h : readRegister tr s (if pin < 8 then r0 else r1) with ⟨⟨ok, v⟩, s1⟩
  have e := readRegister_chipVariant tr s (if pin < 8 then r0 else r1)
  rw [h] at e
  simp only [modifySinglePinRegister, h]
  cases ok
  · simpa using e
  · simp only [Bool.true_eq_false, if_false]
    exact (writeRegister_chipVariant tr s1 _ _).trans e

theorem readDualPort_chipVariant (tr : Transport) (s : DriverState) (r0 r1 : Nat) :
    ((readDualPort tr s r0 r1).2).chipVariant = s.chipVariant := by
  rcases h0 : readRegister tr s r0 with ⟨⟨ok0, v0⟩, s0⟩
  have e0 := readRegister_chipVariant tr s r0
  rw [h0] at e0
  simp only [readDualPort, h0]
  cases ok0
  · simpa using e0
  · rcases h1 : readRegister tr s0 r1 with ⟨⟨ok1, v1⟩, s1⟩
    have e1 := readRegister_chipVariant tr s0 r1
    rw [h1] at e1
    simp only [Bool.true_eq_false, if_false, h1]
    exact e1.trans e0

theorem writeDualPort_chipVariant (tr : Transport) (s : DriverState) (r0 r1 v0 v1 : Nat) :
    ((writeDualPort tr s r0 r1 v0 v1).2).chipVariant = s.chipVariant := by
  rcases h0 : writeRegister tr s r0 v0 with ⟨ok0, s0⟩
  have e0 := writeRegister_chipVariant tr s r0 v0
  rw [h0] at e0
  simp only [writeDualPort, h0]
  cases ok0
  · simpa using e0
  · simp only [Bool.true_eq_false, if_false]
    exact (writeRegister_chipVariant tr s0 r1 v1).trans e0

section OpPreservation

variable (tr : Transport) (s : DriverState)

theorem SetPinDirection_chipVariant (pin : Nat) (dir : GPIODir)
    (hinit : s.initialized = true) :
    ((SetPinDirection tr s pin dir).2).chipVariant = s.chipVariant := by
  simp only [SetPinDirection, EnsureInitialized, hinit, if_true, Bool.true_eq_false, if_false]
  by_cases hp : 16 ≤ pin
  · simp [hp, setError]
  · rw [if_neg hp]
    exact (modifySinglePinRegister_chipVariant tr _ _ _ pin _).trans (by simp [clearError])

theorem WritePin_chipVariant (pin : Nat) (v : Bool) (hinit : s.initialized = true) :
    ((WritePin tr s pin v).2).chipVariant = s.chipVariant := by
  simp only [WritePin, EnsureInitialized, hinit, if_true, Bool.true_eq_false, if_false]
  by_cases hp : 16 ≤ pin
  · simp [hp, setError]
  · rw [if_neg hp]
    exact (modifySinglePinRegister_chipVariant tr _ _ _ pin _).trans (by simp [clearError])

theorem SetPinPolarity_chipVariant (pin : Nat) (pol : Polarity) (hinit : s.initialized = true) :
    ((SetPinPolarity tr s pin pol).2).chipVariant = s.chipVariant := by
  simp only [SetPinPolarity, EnsureInitialized, hinit, if_true, Bool.true_eq_false, if_false]
  by_cases hp : 16 ≤ pin
  · simp [hp, setError]
  · rw [if_neg hp]
    exact (modifySinglePinRegister_chipVariant tr _ _ _ pin _).trans (by simp [clearError])

theorem ReadPin_chipVariant (pin : Nat) (hinit : s.initialized = true) :
    ((ReadPin tr s pin).2).chipVariant = s.chipVariant := by
  simp only [ReadPin, EnsureInitialized, hinit, if_true, Bool.true_eq_false, if_false]
  by_cases hp : 16 ≤ pin
  · simp [hp, setError]
  · rw [if_neg hp]
    rcases h : readRegister tr (clearError s Error.InvalidPin)
        (if pin < 8 then Reg.INPUT_PORT_0 else Reg.INPUT_PORT_1) with ⟨⟨ok, v⟩, s1⟩
    have e := readRegister_chipVariant tr (clearError s Error.InvalidPin)
        (if pin < 8 then Reg.INPUT_PORT_0 else Reg.INPUT_PORT_1)
    rw [h] at e
    simp only [h]
    have e2 : s1.chipVariant = s.chipVariant := e.trans (by simp [clearError])
    cases ok <;> simpa using e2

theorem SetPullEnable_chipVariant (pin : Nat) (en : Bool) (hinit : s.initialized = true) :
    ((SetPullEnable tr s pin en).2).chipVariant = s.chipVariant := by
  simp only [SetPullEnable, EnsureInitialized, hinit, if_true, Bool.true_eq_false, if_false]
  rcases hA : requireAgileIo s with ⟨okA, sA⟩
  have eA := requireAgileIo_chipVariant s
  rw [hA] at eA
  simp only [hA]
  cases okA
  · simpa using eA
  · simp only [Bool.true_eq_false, if_false]
    by_cases hp : 16 ≤ pin
    · simp [hp, setError]
      exact eA
    · rw [if_neg hp]
      exact (modifySinglePinRegister_chipVariant tr _ _ _ pin _).trans
        ((by simp [clearError] : (clearError sA Error.InvalidPin).chipVariant
          = sA.chipVariant).trans eA)

theorem SetPullDirection_chipVariant (pin : Nat) (pu : Bool) (hinit : s.initialized = true) :
    ((SetPullDirection tr s pin pu).2).chipVariant = s.chipVariant := by
  simp only [SetPullDirection, EnsureInitialized, hinit, if_true, Bool.true_eq_false, if_false]
  rcases hA : requireAgileIo s with ⟨okA, sA⟩
  have eA := requireAgileIo_chipVariant s
  rw [hA] at eA
  simp only [hA]
  cases okA
  · simpa using eA
  · simp only [Bool.true_eq_false, if_false]
    by_cases hp : 16 ≤ pin
    · simp [hp, setError]
      exact eA
    · rw [if_neg hp]
      exact (modifySinglePinRegister_chipVariant tr _ _ _ pin _).trans
        ((by simp [clearError] : (clearError sA Error.InvalidPin).chipVariant
          = sA.chipVariant).trans eA)

theorem EnableInputLatch_chipVariant (pin : Nat) (en : Bool) (hinit : s.initialized = true) :
    ((EnableInputLatch tr s pin en).2).chipVariant = s.chipVariant := by
  simp only [EnableInputLatch, EnsureInitialized, hinit, if_true, Bool.true_eq_false, if_false]
  rcases hA : requireAgileIo s with ⟨okA, sA⟩
  have eA := requireAgileIo_chipVariant s
  rw [hA] at eA
  simp only [hA]
  cases okA
  · simpa using eA
  · simp only [Bool.true_eq_false, if_false]
    by_cases hp : 16 ≤ pin
    · simp [hp, setError]
      exact eA
    · rw [if_neg hp]
      exact (modifySinglePinRegister_chipVariant tr _ _ _ pin _).trans
        ((by simp [clearError] : (clearError sA Error.InvalidPin).chipVariant
          = sA.chipVariant).trans eA)

theorem listBatch_after_read_chipVariant {α : Type} (f : α → Bool)
    (cfgs : List (Nat × α)) (r0 r1 : Nat) (s1 : DriverState)
    (hme : s1.chipVariant = s.chipVariant) (p0 p1 : Nat) :
    (((match foldPortPair f cfgs p0 p1 with
      | none => ((false : Bool), setError s1 Error.InvalidPin)
      | some (q0, q1) => writeDualPort tr (clearError s1 Error.InvalidPin) r0 r1 q0 q1).2)).chipVariant
      = s.chipVariant := by
  cases hf : foldPortPair f cfgs p0 p1 with
  | none => simpa [setError] using hme
  | some q =>
    rcases q with ⟨q0, q1⟩
    exact (writeDualPort_chipVariant tr _ r0 r1 q0 q1).trans
      ((by simp [clearError] : (clearError s1 Error.InvalidPin).chipVariant
        = s1.chipVariant).trans hme)

theorem WritePins_chipVariant (cfgs : List (Nat × Bool)) (hinit : s.initialized = true) :
    ((WritePins tr s cfgs).2).chipVariant = s.chipVariant := by
  simp only [WritePins, EnsureInitialized, hinit, if_true, Bool.true_eq_false, if_false]
  rcases hR : readDualPort tr s Reg.OUTPUT_PORT_0 Reg.OUTPUT_PORT_1 with ⟨⟨okR, p0, p1⟩, s1⟩
  have eR := readDualPort_chipVariant tr s Reg.OUTPUT_PORT_0 Reg.OUTPUT_PORT_1
  rw [hR] at eR
  simp only [hR]
  cases okR
  · simpa using eR
  · simp only [Bool.true_eq_false, if_false]
    exact listBatch_after_read_chipVariant tr s _ cfgs _ _ s1 eR p0 p1

theorem SetDirections_chipVariant (cfgs : List (Nat × GPIODir)) (hinit : s.initialized = true) :
    ((SetDirections tr s cfgs).2).chipVariant = s.chipVariant := by
  simp only [SetDirections, EnsureInitialized, hinit, if_true, Bool.true_eq_false, if_false]
  rcases hR : readDualPort tr s Reg.CONFIG_PORT_0 Reg.CONFIG_PORT_1 with ⟨⟨okR, p0, p1⟩, s1⟩
  have eR := readDualPort_chipVariant tr s Reg.CONFIG_PORT_0 Reg.CONFIG_PORT_1
  rw [hR] at eR
  simp only [hR]
  cases okR
  · simpa using eR
  · simp only [Bool.true_eq_false, if_false]
    exact listBatch_after_read_chipVariant tr s _ cfgs _ _ s1 eR p0 p1

theorem SetPolarities_chipVariant (cfgs : List (Nat × Polarity)) (hinit : s.initialized = true) :
    ((SetPolarities tr s cfgs).2).chipVariant = s.chipVariant := by
  simp only [SetPolarities, EnsureInitialized, hinit, if_true, Bool.true_eq_false, if_false]
  rcases hR : readDualPort tr s Reg.POLARITY_INV_0 Reg.POLARITY_INV_1 with ⟨⟨okR, p0, p1⟩, s1⟩
  have eR := readDualPort_chipVariant tr s Reg.POLARITY_INV_0 Reg.POLARITY_INV_1
  rw [hR] at eR
  simp only [hR]
  cases okR
  · simpa using eR
  · simp only [Bool.true_eq_false, if_false]
    exact listBatch_after_read_chipVariant tr s _ cfgs _ _ s1 eR p0 p1

theorem SetPullEnables_chipVariant (cfgs : List (Nat × Bool)) (hinit : s.initialized = true) :
    ((SetPullEnables tr s cfgs).2).chipVariant = s.chipVariant := by
  simp only [SetPullEnables, EnsureInitialized, hinit, if_true, Bool.true_eq_false, if_false]
  rcases hA : requireAgileIo s with ⟨okA, sA⟩
  have eA := requireAgileIo_chipVariant s
  rw [hA] at eA
  simp only [hA]
  cases okA
  · simpa using eA
  · simp only [Bool.true_eq_false, if_false]
    rcases hR : readDualPort tr sA Reg.PULL_ENABLE_0 Reg.PULL_ENABLE_1 with ⟨⟨okR, p0, p1⟩, s1⟩
    have eR := readDualPort_chipVariant tr sA Reg.PULL_ENABLE_0 Reg.PULL_ENABLE_1
    rw [hR] at eR
    simp only [hR]
    cases okR
    · simpa using eR.trans eA
    · simp only [Bool.true_eq_false, if_false]
      exact listBatch_after_read_chipVariant tr s _ cfgs _ _ s1 (eR.trans eA) p0 p1

theorem SetPullDirections_chipVariant (cfgs : List (Nat × Bool)) (hinit : s.initialized = true) :
    ((SetPullDirections tr s cfgs).2).chipVariant = s.chipVariant := by
  simp only [SetPullDirections, EnsureInitialized, hinit, if_true, Bool.true_eq_false, if_false]
  rcases hA : requireAgileIo s with ⟨okA, sA⟩
  have eA := requireAgileIo_chipVariant s
  rw [hA] at eA
  simp only [hA]
  cases okA
  · simpa using eA
  · simp only [Bool.true_eq_false, if_false]
    rcases hR : readDualPort tr sA Reg.PULL_SELECT_0 Reg.PULL_SELECT_1 with ⟨⟨okR, p0, p1⟩, s1⟩
    have eR := readDualPort_chipVariant tr sA Reg.PULL_SELECT_0 Reg.PULL_SELECT_1
    rw [hR] at eR
    simp only [hR]
    cases okR
    · simpa using eR.trans eA
    · simp only [Bool.true_eq_false, if_false]
      exact listBatch_after_read_chipVariant tr s _ cfgs _ _ s1 (eR.trans eA) p0 p1

theorem EnableInputLatches_chipVariant (cfgs : List (Nat × Bool)) (hinit : s.initialized = true) :
    ((EnableInputLatches tr s cfgs).2).chipVariant = s.chipVariant := by
  simp only [EnableInputLatches, EnsureInitialized, hinit, if_true, Bool.true_eq_false, if_false]
  rcases hA : requireAgileIo s with ⟨okA, sA⟩
  have eA := requireAgileIo_chipVariant s
  rw [hA] at eA
  simp only [hA]
  cases okA
  · simpa using eA
  · simp only [Bool.true_eq_false, if_false]
    rcases hR : readDualPort tr sA Reg.INPUT_LATCH_0 Reg.INPUT_LATCH_1 with ⟨⟨okR, p0, p1⟩, s1⟩
    have eR := readDualPort_chipVariant tr sA Reg.INPUT_LATCH_0 Reg.INPUT_LATCH_1
    rw [hR] at eR
    simp only [hR]
    cases okR
    · simpa using eR.trans eA
    · simp only [Bool.true_eq_false, if_false]
      exact listBatch_after_read_chipVariant tr s _ cfgs _ _ s1 (eR.trans eA) p0 p1

theorem SetDriveStrength_chipVariant (pin : Nat) (lvl : DriveStrength)
    (hinit : s.initialized = true) :
    ((SetDriveStrength tr s pin lvl).2).chipVariant = s.chipVariant := by
  simp only [SetDriveStrength, EnsureInitialized, hinit, if_true, Bool.true_eq_false, if_false]
  rcases hA : requireAgileIo s with ⟨okA, sA⟩
  have eA := requireAgileIo_chipVariant s
  rw [hA] at eA
  simp only [hA]
  cases okA
  · simpa using eA
  · simp only [Bool.true_eq_false, if_false]
    by_cases hp : 16 ≤ pin
    · simp [hp, setError]
      exact eA
    · rw [if_neg hp]
      rcases hRd : readRegister tr (clearError sA Error.InvalidPin)
          ((if pin < 8 then Reg.DRIVE_STRENGTH_0 else Reg.DRIVE_STRENGTH_2) +
            (if 4 ≤ pin % 8 then 1 else 0)) with ⟨⟨ok, v⟩, s1⟩
      have e1 := readRegister_chipVariant tr (clearError sA Error.InvalidPin)
          ((if pin < 8 then Reg.DRIVE_STRENGTH_0 else Reg.DRIVE_STRENGTH_2) +
            (if 4 ≤ pin % 8 then 1 else 0))
      rw [hRd] at e1
      have e1' : s1.chipVariant = s.chipVariant :=
        e1.trans ((by simp [clearError] : (clearError sA Error.InvalidPin).chipVariant
          = sA.chipVariant).trans eA)
      simp only [hRd]
      cases ok
      · simpa using e1'
      · simp only [Bool.true_eq_false, if_false]
        exact (writeRegister_chipVariant tr s1 _ _).trans e1'

theorem SetDriveStrengths_chipVariant (cfgs : List (Nat × DriveStrength))
    (hinit : s.initialized = true) :
    ((SetDriveStrengths tr s cfgs).2).chipVariant = s.chipVariant := by
  simp only [SetDriveStrengths, EnsureInitialized, hinit, if_true, Bool.true_eq_false, if_false]
  rcases hA : requireAgileIo s with ⟨okA, sA⟩
  have eA := requireAgileIo_chipVariant s
  rw [hA] at eA
  simp only [hA]
  cases okA
  · simpa using eA
  · simp only [Bool.true_eq_false, if_false]
    rcases h0 : readRegister tr sA Reg.DRIVE_STRENGTH_0 with ⟨⟨ok0, d0⟩, s0⟩
    have e0 := readRegister_chipVariant tr sA Reg.DRIVE_STRENGTH_0
    rw [h0] at e0
    simp only [h0]
    cases ok0
    · simpa using e0.trans eA
    · simp only [Bool.true_eq_false, if_false]
      rcases h1 : readRegister tr s0 Reg.DRIVE_STRENGTH_1 with ⟨⟨ok1, d1⟩, s1⟩
      have e1 := readRegister_chipVariant tr s0 Reg.DRIVE_STRENGTH_1
      rw [h1] at e1
      simp only [h1]
      cases ok1
      · simpa using (e1.trans e0).trans eA
      · simp only [Bool.true_eq_false, if_false]
        rcases h2 : readRegister tr s1 Reg.DRIVE_STRENGTH_2 with ⟨⟨ok2, d2⟩, s2⟩
        have e2 := readRegister_chipVariant tr s1 Reg.DRIVE_STRENGTH_2
        rw [h2] at e2
        simp only [h2]
        cases ok2
        · simpa using ((e2.trans e1).trans e0).trans eA
        · simp only [Bool.true_eq_false, if_false]
          rcases h3 : readRegister tr s2 Reg.DRIVE_STRENGTH_3 with ⟨⟨ok3, d3⟩, s3⟩
          have e3 := readRegister_chipVariant tr s2 Reg.DRIVE_STRENGTH_3
          rw [h3] at e3
          simp only [h3]
          have e3' : s3.chipVariant = s.chipVariant :=
            (((e3.trans e2).trans e1).trans e0).trans eA
          cases ok3
          · simpa using e3'
          · simp only [Bool.true_eq_false, if_false]
            cases hf : foldDrive cfgs d0 d1 d2 d3 with
            | none => simpa [setError] using e3'
            | some q =>
              rcases q with ⟨q0, q1, q2, q3⟩
              have ec : (clearError s3 Error.InvalidPin).chipVariant = s.chipVariant := by
                simpa [clearError] using e3'
              rcases hw0 : writeRegister tr (clearError s3 Error.InvalidPin)
                  Reg.DRIVE_STRENGTH_0 q0 with ⟨w0, t0⟩
              have f0 := writeRegister_chipVariant tr (clearError s3 Error.InvalidPin)
                  Reg.DRIVE_STRENGTH_0 q0
              rw [hw0] at f0
              simp only [hw0]
              cases w0
              · simpa using f0.trans ec
              · simp only [Bool.true_eq_false, if_false]
                rcases hw1 : writeRegister tr t0 Reg.DRIVE_STRENGTH_1 q1 with ⟨w1, t1⟩
                have f1 := writeRegister_chipVariant tr t0 Reg.DRIVE_STRENGTH_1 q1
                rw [hw1] at f1
                simp only [hw1]
                cases w1
                · simpa using (f1.trans f0).trans ec
                · simp only [Bool.true_eq_false, if_false]
                  rcases hw2 : writeRegister tr t1 Reg.DRIVE_STRENGTH_2 q2 with ⟨w2, t2⟩
                  have f2 := writeRegister_chipVariant tr t1 Reg.DRIVE_STRENGTH_2 q2
                  rw [hw2] at f2
                  simp only [hw2]
                  cases w2
                  · simpa using ((f2.trans f1).trans f0).trans ec
                  · simp only [Bool.true_eq_false, if_false]
                    exact (writeRegister_chipVariant tr t2 Reg.DRIVE_STRENGTH_3 q3).trans
                      (((f2.trans f1).trans f0).trans ec)

theorem ConfigureInterruptMask_chipVariant (mask : Nat) (hinit : s.initialized = true) :
    ((ConfigureInterruptMask tr s mask).2).chipVariant = s.chipVariant := by
  simp only [ConfigureInterruptMask, EnsureInitialized, hinit, if_true,
    Bool.true_eq_false, if_false]
  rcases hA : requireAgileIo s with ⟨okA, sA⟩
  have eA := requireAgileIo_chipVariant s
  rw [hA] at eA
  simp only [hA]
  cases okA
  · simpa using eA
  · simp only [Bool.true_eq_false, if_false]
    rcases hw0 : writeRegister tr sA Reg.INT_MASK_0 (mask &&& 0xFF) with ⟨w0, t0⟩
    have f0 := writeRegister_chipVariant tr sA Reg.INT_MASK_0 (mask &&& 0xFF)
    rw [hw0] at f0
    simp only [hw0]
    cases w0
    · simpa using f0.trans eA
    · simp only [Bool.true_eq_false, if_false]
      exact (writeRegister_chipVariant tr t0 Reg.INT_MASK_1 ((mask >>> 8) &&& 0xFF)).trans
        (f0.trans eA)

theorem GetInterruptStatus_chipVariant (hinit : s.initialized = true) :
    ((GetInterruptStatus tr s).2).chipVariant = s.chipVariant := by
  simp only [GetInterruptStatus, EnsureInitialized, hinit, if_true,
    Bool.true_eq_false, if_false]
  rcases hA : requireAgileIo s with ⟨okA, sA⟩
  have eA := requireAgileIo_chipVariant s
  rw [hA] at eA
  simp only [hA]
  cases okA
  · simpa using eA
  · simp only [Bool.true_eq_false, if_false]
    rcases h0 : readRegister tr sA Reg.INT_STATUS_0 with ⟨⟨ok0, lo⟩, s0⟩
    have e0 := readRegister_chipVariant tr sA Reg.INT_STATUS_0
    rw [h0] at e0
    rcases h1 : readRegister tr s0 Reg.INT_STATUS_1 with ⟨⟨ok1, hi⟩, s1⟩
    have e1 := readRegister_chipVariant tr s0 Reg.INT_STATUS_1
    rw [h1] at e1
    simp only [h0, h1]
    exact (e1.trans e0).trans eA

theorem SetOutputMode_chipVariant (od0 od1 : Bool) (hinit : s.initialized = true) :
    ((SetOutputMode tr s od0 od1).2).chipVariant = s.chipVariant := by
  simp only [SetOutputMode, EnsureInitialized, hinit, if_true, Bool.true_eq_false, if_false]
  rcases hA : requireAgileIo s with ⟨okA, sA⟩
  have eA := requireAgileIo_chipVariant s
  rw [hA] at eA
  simp only [hA]
  cases okA
  · simpa using eA
  · simp only [Bool.true_eq_false, if_false]
    exact (writeRegister_chipVariant tr sA Reg.OUTPUT_CONF _).trans eA

theorem ReadPins_chipVariant (pins : List Nat) (hinit : s.initialized = true) :
    ((ReadPins tr s pins).2).chipVariant = s.chipVariant := by
  simp only [ReadPins, EnsureInitialized, hinit, if_true, Bool.true_eq_false, if_false]
  rcases h0 : readRegister tr s Reg.INPUT_PORT_0 with ⟨⟨ok0, p0⟩, s0⟩
  have e0 := readRegister_chipVariant tr s Reg.INPUT_PORT_0
  rw [h0] at e0
  simp only [h0]
  cases ok0
  · simpa using e0
  · simp only [Bool.true_eq_false, if_false]
    rcases h1 : readRegister tr s0 Reg.INPUT_PORT_1 with ⟨⟨ok1, p1⟩, s1⟩
    have e1 := readRegister_chipVariant tr s0 Reg.INPUT_PORT_1
    rw [h1] at e1
    simp only [h1]
    cases ok1 <;> simpa using e1.trans e0

theorem readPinStates_chipVariant_eq (a b : DriverState) (ps : Nat)
    (h : readPinStates tr a = (ps, b)) : b.chipVariant = a.chipVariant := by
  have e := readPinStates_chipVariant tr a
  rw [h] at e
  exact e

theorem RegisterPinInterrupt_chipVariant (pin : Nat) (edge : InterruptEdge) (hasCb : Bool)
    (hinit : s.initialized = true) :
    ((RegisterPinInterrupt tr s pin edge hasCb).2).chipVariant = s.chipVariant := by
  simp only [RegisterPinInterrupt, EnsureInitialized, hinit, if_true,
    Bool.true_eq_false, if_false]
  by_cases hp : 16 ≤ pin
  · simp [hp, setError]
  · rw [if_neg hp]
    cases hasCb
    · simp [clearError]
    · simp only [Bool.true_eq_false, if_false]
      rcases hps : readPinStates tr _ with ⟨ps, s2⟩
      have e := readPinStates_chipVariant_eq tr _ s2 ps hps
      simp only [hps]
      simpa [clearError] using e

theorem UnregisterPinInterrupt_chipVariant (pin : Nat) (hinit : s.initialized = true) :
    ((UnregisterPinInterrupt tr s pin).2).chipVariant = s.chipVariant := by
  simp only [UnregisterPinInterrupt, EnsureInitialized, hinit, if_true,
    Bool.true_eq_false, if_false]
  by_cases hp : 16 ≤ pin
  · simp [hp, setError]
  · rw [if_neg hp]
    split <;> simp [clearError]

theorem HandleInterrupt_chipVariant (hinit : s.initialized = true) :
    ((HandleInterrupt tr s).1).chipVariant = s.chipVariant := by
  simp only [HandleInterrupt, EnsureInitialized, hinit, if_true, Bool.true_eq_false, if_false]
  by_cases hv : s.chipVariant = ChipVariant.PCAL9555A
  · rw [if_pos hv]
    rcases hG : GetInterruptStatus tr s with ⟨st, sG⟩
    have eG := GetInterruptStatus_chipVariant tr s hinit
    rw [hG] at eG
    simp only [hG]
    rcases hps : readPinStates tr sG with ⟨cur, s2⟩
    have e2 := readPinStates_chipVariant_eq tr sG s2 cur hps
    simp only [hps]
    simpa using e2.trans eG
  · rw [if_neg hv]
    rcases hp1 : readPinStates tr s with ⟨cur1, sB⟩
    have eB := readPinStates_chipVariant_eq tr s sB cur1 hp1
    simp only [hp1]
    rcases hp2 : readPinStates tr sB with ⟨cur2, s2⟩
    have e2 := readPinStates_chipVariant_eq tr sB s2 cur2 hp2
    simp only [hp2]
    simpa using e2.trans eB

end OpPreservation

/-- Claim C6, counterexample: The chip variant does *not* stay fixed after
initialization: against the scripted transport `trBase` the driver at
`0x20` initializes to the Base variant (the probe read, access 2, NACKs),
but a subsequent `ChangeAddress(0x21)` re-runs detection at the new
address (where every read of the same script is acknowledged) and flips
the variant to Extended — a second transition after initialization. -/
theorem C6_variant_retransition_counterexample :
    GetChipVariant (initDriver trBase d20).2 = ChipVariant.PCA9555 ∧
    (ChangeAddressU8 trBase (initDriver trBase d20).2 0x21).1 = true ∧
    GetChipVariant (ChangeAddressU8 trBase (initDriver trBase d20).2 0x21).2 =
      ChipVariant.PCAL9555A := by
  refine ⟨by decide, by decide, by decide⟩

/-- Claim C6, amended: The variant starts `Unknown` at construction and, on
an initialized driver, `EnsureInitialized` is an identity (so no pin,
batch, error, interrupt, or transaction operation re-enters detection) and
every such modelled operation leaves `chip_variant_` unchanged under any
scripted transport; only initialization and the address-change path (which
re-runs detection, see the counterexample) can set it. -/
theorem C6_variant_transition_amended (tr : Transport) (s : DriverState)
    (pin mask reg val addr : Nat) (n : Int) (dir : GPIODir) (pol : Polarity)
    (lvl : DriveStrength) (en pu v od0 od1 hasCb irqOn : Bool) (edge : InterruptEdge)
    (cfgsB : List (Nat × Bool)) (cfgsD : List (Nat × GPIODir))
    (cfgsP : List (Nat × Polarity)) (cfgsS : List (Nat × DriveStrength))
    (pins : List Nat) (variant : ChipVariant)
    (hinit : s.initialized = true) :
    (PCAL95555ofAddress addr variant).chipVariant = ChipVariant.Unknown ∧
    EnsureInitialized tr s = (true, s) ∧
    ((writeRegister tr s reg val).2).chipVariant = s.chipVariant ∧
    ((readRegister tr s reg).2).chipVariant = s.chipVariant ∧
    (SetRetries s n).chipVariant = s.chipVariant ∧
    (ClearErrorFlags s mask).chipVariant = s.chipVariant ∧
    (SetInterruptCallback s irqOn).chipVariant = s.chipVariant ∧
    ((SetPinDirection tr s pin dir).2).chipVariant = s.chipVariant ∧
    ((WritePin tr s pin v).2).chipVariant = s.chipVariant ∧
    ((ReadPin tr s pin).2).chipVariant = s.chipVariant ∧
    ((SetPinPolarity tr s pin pol).2).chipVariant = s.chipVariant ∧
    ((WritePins tr s cfgsB).2).chipVariant = s.chipVariant ∧
    ((SetDirections tr s cfgsD).2).chipVariant = s.chipVariant ∧
    ((SetPolarities tr s cfgsP).2).chipVariant = s.chipVariant ∧
    ((ReadPins tr s pins).2).chipVariant = s.chipVariant ∧
    ((SetPullEnable tr s pin en).2).chipVariant = s.chipVariant ∧
    ((SetPullDirection tr s pin pu).2).chipVariant = s.chipVariant ∧
    ((SetPullEnables tr s cfgsB).2).chipVariant = s.chipVariant ∧
    ((SetPullDirections tr s cfgsB).2).chipVariant = s.chipVariant ∧
    ((SetDriveStrength tr s pin lvl).2).chipVariant = s.chipVariant ∧
    ((SetDriveStrengths tr s cfgsS).2).chipVariant = s.chipVariant ∧
    ((EnableInputLatch tr s pin en).2).chipVariant = s.chipVariant ∧
    ((EnableInputLatches tr s cfgsB).2).chipVariant = s.chipVariant ∧
    ((ConfigureInterruptMask tr s mask).2).chipVariant = s.chipVariant ∧
    ((GetInterruptStatus tr s).2).chipVariant = s.chipVariant ∧
    ((SetOutputMode tr s od0 od1).2).chipVariant = s.chipVariant ∧
    ((RegisterPinInterrupt tr s pin edge hasCb).2).chipVariant = s.chipVariant ∧
    ((UnregisterPinInterrupt tr s pin).2).chipVariant = s.chipVariant ∧
    ((HandleInterrupt tr s).1).chipVariant = s.chipVariant :=
  ⟨rfl, by simp [EnsureInitialized, hinit],
    writeRegister_chipVariant tr s reg val,
    readRegister_chipVariant tr s reg,
    rfl, rfl, rfl,
    SetPinDirection_chipVariant tr s pin dir hinit,
    WritePin_chipVariant tr s pin v hinit,
    ReadPin_chipVariant tr s pin hinit,
    SetPinPolarity_chipVariant tr s pin pol hinit,
    WritePins_chipVariant tr s cfgsB hinit,
    SetDirections_chipVariant tr s cfgsD hinit,
    SetPolarities_chipVariant tr s cfgsP hinit,
    ReadPins_chipVariant tr s pins hinit,
    SetPullEnable_chipVariant tr s pin en hinit,
    SetPullDirection_chipVariant tr s pin pu hinit,
    SetPullEnables_chipVariant tr s cfgsB hinit,
    SetPullDirections_chipVariant tr s cfgsB hinit,
    SetDriveStrength_chipVariant tr s pin lvl hinit,
    SetDriveStrengths_chipVariant tr s cfgsS hinit,
    EnableInputLatch_chipVariant tr s pin en hinit,
    EnableInputLatches_chipVariant tr s cfgsB hinit,
    ConfigureInterruptMask_chipVariant tr s mask hinit,
    GetInterruptStatus_chipVariant tr s hinit,
    SetOutputMode_chipVariant tr s od0 od1 hinit,
    RegisterPinInterrupt_chipVariant tr s pin edge hasCb hinit,
    UnregisterPinInterrupt_chipVariant tr s pin hinit,
    HandleInterrupt_chipVariant tr s hinit⟩

/-- Concrete run of `C6_variant_transition_amended` on the initialized
Extended-variant driver `sExt`. -/
theorem C6_variant_transition_amended_witness :
    ((HandleInterrupt trOk sExt).1).chipVariant = sExt.chipVariant ∧
    ((WritePin trOk sExt 3 true).2).chipVariant = sExt.chipVariant := by
  have h := C6_variant_transition_amended trOk sExt 3 0xFFFF 2 0x55 0x20 1
    GPIODir.Input Polarity.Normal DriveStrength.Level1 true true true true false true true
    InterruptEdge.Both [(1, true)] [(1, GPIODir.Input)] [(1, Polarity.Normal)]
    [(1, DriveStrength.Level1)] [1] ChipVariant.Unknown (by decide)
  exact ⟨h.2.2.2.2.2.2.2.2.2.2.2.2.2.2.2.2.2.2.2.2.2.2.2.2.2.2.2.2,
    h.2.2.2.2.2.2.2.2.1⟩

/-- Claim C7: `ChangeAddress(address)` with a 7-bit address outside
`[0x20, 0x27]` returns `false` and leaves the state exactly
`setError s InvalidAddress` — the (spec-modelled, see
`Error.InvalidAddress`) invalid-address flag is set, no transport access
happens, and the stored device address is unchanged.  Note the `Error`
enum in `pcal95555.hpp` defines no `InvalidAddress` enumerator even though
`pcal95555.ipp` references `Error::InvalidAddress`; the flag bit here is
modelled from the spec (§7). -/
theorem C7_change_address_invalid (tr : Transport) (s : DriverState) (address : Nat)
    (hbad : address % 256 < 0x20 ∨ 0x27 < address % 256) :
    ChangeAddressU8 tr s address = (false, setError s Error.InvalidAddress) ∧
    HasError (setError s Error.InvalidAddress) Error.InvalidAddress = true ∧
    (setError s Error.InvalidAddress).trace = s.trace ∧
    (setError s Error.InvalidAddress).t = s.t ∧
    GetAddress (setError s Error.InvalidAddress) = GetAddress s := by
  refine ⟨?_, ?_, rfl, rfl, rfl⟩
  · have hc : (address % 256 < 0x20 || 0x27 < address % 256) = true := by
      rcases hbad with h | h <;> simp [h]
    simp [ChangeAddressU8, hc]
  · simp only [HasError, setError, Error.InvalidAddress]
    rw [show (32 : Nat) = 2 ^ 5 by norm_num]
    simpa using hasBit_set s.errorFlags 5

/-- Concrete run of `C7_change_address_invalid` at address `0x28` on the
initialized driver `sExt`: rejected with no transport access and the
device address still `0x20`. -/
theorem C7_change_address_invalid_witness :
    ChangeAddressU8 trOk sExt 0x28 = (false, setError sExt Error.InvalidAddress) ∧
    GetAddress (setError sExt Error.InvalidAddress) = 0x20 := by
  have h := C7_change_address_invalid trOk sExt 0x28 (by decide)
  exact ⟨h.1, by rw [h.2.2.2.2]; decide⟩

end pcal95555
